import Mathlib

/-!
# Converse Client-Server (CCS) request routing, dispatch and reply path

A shallow embedding of `src/conv-ccs/conv-ccs.C`.  Per-PE globals (`ccsTab`,
`ccsReq`, `_ccsHandlerIdx`, the startup buffer) are fields of `CcsState`; calls
that leave the file (`CcsReply`, `CmiSyncSendAndFree`, user callbacks) are
recorded in trace fields of the same state.  `CmiAbort` and invalid memory
accesses end a run with an error value.

Build configuration embedded here: `CMK_CCS_AVAILABLE`, no `CMK_CHARM4PY`,
no `CMK_CHARMDEBUG`; `NODE_0_IS_CONVHOST` is an explicit argument where the
code depends on it.
-/

namespace ConvCcs

/-! ## Machine-level data -/

/-- One byte of message data. -/
abbrev Byte := Fin 256

/-- Reduce an integer to the value a 32-bit two-complement `int` holds after a
conversion from a wider type. -/
def wrap32 (x : Int) : Int :=
  (x + 2147483648) % 4294967296 - 2147483648

/-- Modelled from the spec: `ChMessageInt_t` (declared in the socket header,
not part of this file) is a 4-byte integer in network byte order. -/
structure ChMessageInt_t where
  d0 : Byte
  d1 : Byte
  d2 : Byte
  d3 : Byte
deriving DecidableEq, Repr

/-- Modelled from the spec: `ChMessageInt` decodes the 4 network-order bytes to
the int32 value of the field (payloadLength and targetSelector are int32). -/
def ChMessageInt (m : ChMessageInt_t) : Int :=
  wrap32 (m.d0.val * 16777216 + m.d1.val * 65536 + m.d2.val * 256 + m.d3.val)

/-- Modelled from the spec: `ChMessageInt_new` encodes an integer as 4 bytes in
network byte order. -/
def ChMessageInt_new (src : Int) : ChMessageInt_t :=
  let u : Nat := (src % 4294967296).toNat
  { d0 := ⟨u / 16777216 % 256, Nat.mod_lt _ (by decide)⟩
    d1 := ⟨u / 65536 % 256, Nat.mod_lt _ (by decide)⟩
    d2 := ⟨u / 256 % 256, Nat.mod_lt _ (by decide)⟩
    d3 := ⟨u % 256, Nat.mod_lt _ (by decide)⟩ }

/-- How a run ends when it does not return. -/
inductive Fault where
  /-- `CmiAbort` (or a failed `CmiAssert`) with its message. -/
  | abort (msg : String)
  /-- An access outside an allocated object or through a null pointer. -/
  | memory
deriving DecidableEq, Repr

/-- The C library `memcpy(dst, src, n)` seen from the reader side: the first
`n` bytes of the object `src`; a negative `n` (a huge `size_t`) or an `n`
beyond the object is an invalid access. -/
def memcpy (src : List Byte) (n : Int) : Except Fault (List Byte) :=
  if 0 ≤ n ∧ n ≤ (src.length : Int) then pure (src.take n.toNat) else throw Fault.memory

/-- The expression `*(ChMessageInt_t*)p`: the first four bytes at `p`. -/
def readChMessageInt (p : List Byte) : Except Fault ChMessageInt_t :=
  match p with
  | b0 :: b1 :: b2 :: b3 :: _ => pure ⟨b0, b1, b2, b3⟩
  | _ => throw Fault.memory

/-! ## Envelope, messages, handler records -/

/-- Source information of a request (`CcsSecAttr`): the fields this file reads. -/
structure CcsSecAttr where
  ip : List Byte
  port : ChMessageInt_t
deriving DecidableEq, Repr

/-- The wire envelope `CcsImplHeader`: the fields this file reads or writes. -/
structure CcsImplHeader where
  attr : CcsSecAttr
  handler : String
  pe : ChMessageInt_t
  len : ChMessageInt_t
deriving DecidableEq, Repr

/-- Layout constants and machine facts the code takes from other headers. -/
structure Config where
  /-- The constant `CmiReservedHeaderSize`. -/
  CmiReservedHeaderSize : Nat
  /-- The constant `sizeof(CcsImplHeader)`. -/
  sizeofCcsImplHeader : Nat
  /-- The value of `CmiNumPes()`. -/
  CmiNumPes : Int
  /-- The value of `CmiMyPe()`. -/
  CmiMyPe : Int
deriving DecidableEq, Repr

/-- A Converse message built by this file: reserved header (of which only the
handler index is visible), then the envelope, then data bytes. -/
structure ConverseMsg where
  /-- Handler index stored by `CmiSetHandler`; `none` while unset. -/
  handlerIdx : Option Int
  hdr : CcsImplHeader
  data : List Byte
deriving DecidableEq, Repr

/-- The token `CcsDelayedReply`: `hdr` points to a `malloc` block of `len` bytes
filled by `memcpy` from the address of the pending envelope.  The block holds
a whole envelope exactly when `sizeof(CcsImplHeader) ≤ len`; `env` is the
envelope the bytes were copied from. -/
structure CcsDelayedReply where
  len : Int
  env : CcsImplHeader
deriving DecidableEq, Repr

/-- One call made by a user handler on the reply surface of this file. -/
inductive HandlerCall where
  | SendReply (replyLen : Int) (replyData : List Byte)
  | SendReplyNoError (replyLen : Int) (replyData : List Byte)
  | NoReply
  | DelayReply
deriving DecidableEq, Repr

/-- A `CcsHandlerFn` callback `(userPtr, reqLen, reqData)`, given by the calls it
makes on the reply surface. -/
abbrev CcsHandlerFn := Option Nat → Int → List Byte → List HandlerCall

/-- A `CmiHandler` callback: receives the message bytes behind the reserved
header. -/
abbrev CmiHandler := List Byte → List HandlerCall

/-- The record `CcsHandlerRec`. -/
structure CcsHandlerRec where
  name : String
  fn : Option CcsHandlerFn
  fnOld : Option CmiHandler
  userPtr : Option Nat
  mergeFn : Option Nat
  nCalls : Int
  redID : Option Nat

/-- One call `CcsReply(rep, repLen, repData)`. -/
structure ReplyCall where
  rep : CcsImplHeader
  repLen : Int
  repData : List Byte
deriving DecidableEq, Repr

/-- One call `CmiSyncSendAndFree(destPE, len, msg)`; `msg` is `none` for `NULL`. -/
structure SendCall where
  destPE : Int
  len : Int
  msg : Option ConverseMsg
deriving DecidableEq, Repr

/-- Per-PE state of the CCS layer together with the trace of outgoing calls. -/
structure CcsState where
  /-- The table `ccsTab`, keyed by handler name. -/
  ccsTab : String → Option CcsHandlerRec
  /-- The slot `ccsReq`: the envelope of the request being served, or `NULL`. -/
  ccsReq : Option CcsImplHeader
  /-- Number of bytes readable behind the envelope of the request being served
  (the rest of the object in which the caller of `CcsHandleRequest` holds that
  envelope).  It is a fact about the memory of the caller: no function of this
  file changes it, and only the `memcpy` of `CcsDelayReply` can read that far. -/
  ccsReqTail : Nat
  /-- The array `bufferedMessages` (`NULL`, or 100 entries). -/
  bufferedMessages : Option (List (Option ConverseMsg))
  CcsNumBufferedMsgs : Int
  _ccsHandlerIdx : Int
  rep_fw_handler_idx : Int
  /-- Calls of `CcsReply`, oldest first. -/
  replies : List ReplyCall
  /-- Calls of `CmiSyncSendAndFree`, oldest first. -/
  sends : List SendCall
  /-- Tokens returned by `CcsDelayReply`, oldest first. -/
  tokens : List CcsDelayedReply
  /-- Names of the records whose callback has been invoked, oldest first. -/
  invoked : List String
  /-- Messages passed to `CsdEnqueue`, oldest first. -/
  enqueued : List ConverseMsg
  /-- Calls of `CcsServer_sendReply`, oldest first. -/
  delivered : List ReplyCall

/-! ## Calls that leave this file -/

/-- Modelled from the spec: the macro `CmiAssert` is defined outside this file; a
violated internal-consistency condition is fatal, so a failed assertion aborts
like `CmiAbort`, with the asserted expression as message. -/
def CmiAssert (cond : Bool) (expr : String) : Except Fault Unit :=
  if cond then Except.ok () else Except.error (Fault.abort expr)

/-- Modelled from the spec: `CsdEnqueue` hands a ready message to the scheduler
collaborator; each call is recorded. -/
def CsdEnqueue (msg : ConverseMsg) (s : CcsState) : CcsState :=
  { s with enqueued := s.enqueued ++ [msg] }

/-- Modelled from the spec: `CcsServer_sendReply` is the socket collaborator
`sendReply(envelope, payload)` that writes to the connection of the client;
each call is recorded. -/
def CcsServer_sendReply (rep : CcsImplHeader) (repLen : Int) (repData : List Byte)
    (s : CcsState) : CcsState :=
  { s with delivered := s.delivered ++ [{ rep := rep, repLen := repLen, repData := repData }] }

/-- Modelled from the spec: `CcsReply` is declared in this file and defined
elsewhere; it hands the reply to the forwarding path.  Each call is recorded
with the envelope as it stands at the call, the length and the data. -/
def CcsReply (rep : CcsImplHeader) (repLen : Int) (repData : List Byte) (s : CcsState) :
    CcsState :=
  { s with replies := s.replies ++ [{ rep := rep, repLen := repLen, repData := repData }] }

/-- Modelled from the spec: `CmiSyncSendAndFree` is the transport collaborator
`sendAndRelease(peIndex, buffer)`; each call is recorded. -/
def CmiSyncSendAndFree (destPE : Int) (len : Int) (msg : Option ConverseMsg) (s : CcsState) :
    CcsState :=
  { s with sends := s.sends ++ [{ destPE := destPE, len := len, msg := msg }] }

/-! ## Reply surface (`CcsDelayReply` .. `CcsNoDelayedReply`) -/

/-- The byte count `len` that `CcsDelayReply` passes to `malloc` and `memcpy`
for a pending envelope whose `pe` field holds the int32 value `pe`:
`len = sizeof(CcsImplHeader); if (ChMessageInt(pe) < -1) len += ChMessageInt(pe) * sizeof(int);`
`ChMessageInt` returns an `unsigned int` (`CcsCallerId` stores its result in
one), and here, unlike everywhere else in the file, the result is not stored
in an `int` first: `u` is that unsigned value, `-1` is converted to
4294967295 for the comparison, and the product and the sum are formed in
`size_t` before the sum is stored back into the `int`. -/
def CcsDelayReply_len (cfg : Config) (pe : Int) : Int :=
  let len : Int := cfg.sizeofCcsImplHeader
  let u : Int := pe % 4294967296
  if u < 4294967295 then wrap32 (len + u * 4) else len

/-- The function `CcsDelayReply`.  A null `ccsReq` is dereferenced; a negative
`len` makes `malloc` fail and `memcpy` trap; `memcpy` reads `len` bytes from
the address of the pending envelope, and beyond the envelope only
`ccsReqTail` bytes are readable. -/
def CcsDelayReply (cfg : Config) (s : CcsState) : Except Fault (CcsDelayedReply × CcsState) :=
  match s.ccsReq with
  | none => Except.error Fault.memory
  | some req =>
    let len := CcsDelayReply_len cfg (ChMessageInt req.pe)
    if len < 0 then Except.error Fault.memory
    else if len ≤ (cfg.sizeofCcsImplHeader : Int) + s.ccsReqTail then
      let ret : CcsDelayedReply := { len := len, env := req }
      Except.ok (ret, { s with ccsReq := none, tokens := s.tokens ++ [ret] })
    else Except.error Fault.memory

/-- The function `CcsSendReply`. -/
def CcsSendReply (replyLen : Int) (replyData : List Byte) (s : CcsState) :
    Except Fault CcsState :=
  match s.ccsReq with
  | none => Except.error (Fault.abort "CcsSendReply: reply already sent!")
  | some req =>
    let req := { req with len := ChMessageInt_new 1 }
    Except.ok { CcsReply req replyLen replyData s with ccsReq := none }

/-- The function `CcsSendReplyNoError`. -/
def CcsSendReplyNoError (replyLen : Int) (replyData : List Byte) (s : CcsState) :
    Except Fault CcsState :=
  match s.ccsReq with
  | none => Except.ok s
  | some _ => CcsSendReply replyLen replyData s

/-- The function `CcsSendDelayedReply`.  Writing `h->len` and handing `h` to
`CcsReply` need a block that holds a whole envelope. -/
def CcsSendDelayedReply (cfg : Config) (d : CcsDelayedReply) (replyLen : Int)
    (replyData : List Byte) (s : CcsState) : Except Fault CcsState :=
  if d.len < (cfg.sizeofCcsImplHeader : Int) then Except.error Fault.memory
  else
    let h := { d.env with len := ChMessageInt_new 1 }
    Except.ok (CcsReply h replyLen replyData s)

/-- The function `CcsNoReply`. -/
def CcsNoReply (s : CcsState) : Except Fault CcsState :=
  match s.ccsReq with
  | none => Except.ok s
  | some req =>
    let req := { req with len := ChMessageInt_new 0 }
    Except.ok { CcsReply req 0 [] s with ccsReq := none }

/-- The function `CcsNoDelayedReply`. -/
def CcsNoDelayedReply (cfg : Config) (d : CcsDelayedReply) (s : CcsState) :
    Except Fault CcsState :=
  if d.len < (cfg.sizeofCcsImplHeader : Int) then Except.error Fault.memory
  else
    let h := { d.env with len := ChMessageInt_new 0 }
    Except.ok (CcsReply h 0 [] s)

/-! ## Dispatch (`callHandlerRec`, `CcsHandleRequest`) -/

/-- Perform one call of a user handler on the reply surface. -/
def runCall (cfg : Config) (c : HandlerCall) (s : CcsState) : Except Fault CcsState :=
  match c with
  | HandlerCall.SendReply n d => CcsSendReply n d s
  | HandlerCall.SendReplyNoError n d => CcsSendReplyNoError n d s
  | HandlerCall.NoReply => CcsNoReply s
  | HandlerCall.DelayReply =>
    match CcsDelayReply cfg s with
    | Except.ok (_, s1) => Except.ok s1
    | Except.error e => Except.error e

/-- Run the body of a user handler: its calls in order, stopping at a fault. -/
def runHandler (cfg : Config) : List HandlerCall → CcsState → Except Fault CcsState
  | [], s => Except.ok s
  | c :: cs, s =>
    match runCall cfg c s with
    | Except.ok s1 => runHandler cfg cs s1
    | Except.error e => Except.error e

/-- The function `callHandlerRec` (the variant without `CMK_CHARM4PY`).  The
pointer `c` is the table entry stored under `key`. -/
def callHandlerRec (cfg : Config) (key : String) (c : CcsHandlerRec) (reqLen : Int)
    (reqData : List Byte) (s : CcsState) : Except Fault CcsState :=
  let s1 : CcsState :=
    { s with ccsTab := fun k => if k = key then some { c with nCalls := c.nCalls + 1 }
                                else s.ccsTab k }
  match c.fnOld with
  | some fnOld =>
    match memcpy reqData reqLen with
    | Except.error e => Except.error e
    | Except.ok cmsg => runHandler cfg (fnOld cmsg) { s1 with invoked := s1.invoked ++ [key] }
  | none =>
    match c.fn with
    | some fn =>
      runHandler cfg (fn c.userPtr reqLen reqData) { s1 with invoked := s1.invoked ++ [key] }
    | none => Except.error Fault.memory

/-- The function `CcsHandleRequest` (without the `CMK_CHARMDEBUG` block). -/
def CcsHandleRequest (cfg : Config) (hdr : CcsImplHeader) (reqData : List Byte)
    (s : CcsState) : Except Fault CcsState :=
  let reqLen := ChMessageInt hdr.len
  let handlerStr := hdr.handler
  match s.ccsTab handlerStr with
  | none => CcsSendReply 0 [] { s with ccsReq := some hdr }
  | some fn =>
    match callHandlerRec cfg handlerStr fn reqLen reqData { s with ccsReq := some hdr } with
    | Except.error e => Except.error e
    | Except.ok s1 =>
      match s1.ccsReq with
      | some _ => CcsSendReply 0 [] s1
      | none => Except.ok s1

/-! ## Startup buffer and request routing -/

/-- The constant `CCS_MAX_NUM_BUFFERED_MSGS`. -/
def CCS_MAX_NUM_BUFFERED_MSGS : Int := 100

/-- The function `CcsBufferMessage` (compiled when `NODE_0_IS_CONVHOST` is 0). -/
def CcsBufferMessage (msg : ConverseMsg) (s : CcsState) : Except Fault CcsState :=
  if ¬ (s.CcsNumBufferedMsgs < CCS_MAX_NUM_BUFFERED_MSGS) then
    Except.error (Fault.abort "CcsNumBufferedMsgs < CCS_MAX_NUM_BUFFERED_MSGS")
  else if s.CcsNumBufferedMsgs < 0 then
    Except.error (Fault.abort "Why is a CCS message being buffered now???")
  else
    let arr : List (Option ConverseMsg) :=
      match s.bufferedMessages with
      | none => List.replicate CCS_MAX_NUM_BUFFERED_MSGS.toNat none
      | some a => a
    Except.ok { s with bufferedMessages := some (arr.set s.CcsNumBufferedMsgs.toNat (some msg))
                       CcsNumBufferedMsgs := s.CcsNumBufferedMsgs + 1 }

/-- The function `CcsImpl_ccs2converse`; returns the message pointer (`none` for
`NULL`) and the value stored through `ret_len`.  `convhost` is the build flag
`NODE_0_IS_CONVHOST`. -/
def CcsImpl_ccs2converse (cfg : Config) (convhost : Bool) (hdr : CcsImplHeader)
    (data : List Byte) (s : CcsState) : Except Fault (Option ConverseMsg × Int × CcsState) :=
  let reqLen := ChMessageInt hdr.len
  let destPE := ChMessageInt hdr.pe
  let reqLen := if destPE < -1 then wrap32 (reqLen - destPE * 4) else reqLen
  let need : Int := cfg.CmiReservedHeaderSize + cfg.sizeofCcsImplHeader + reqLen
  let len := wrap32 need
  if len < need then Except.error Fault.memory
  else
    match memcpy data reqLen with
    | Except.error e => Except.error e
    | Except.ok body =>
      let msg : ConverseMsg := { handlerIdx := none, hdr := hdr, data := body }
      if s._ccsHandlerIdx ≠ 0 then
        Except.ok (some { msg with handlerIdx := some s._ccsHandlerIdx }, len, s)
      else if convhost then
        Except.error
          (Fault.abort "Why do we need to buffer messages when node 0 is Convhost?")
      else
        match CcsBufferMessage msg s with
        | Except.error e => Except.error e
        | Except.ok s1 => Except.ok (none, len, s1)

/-- The function `CcsImpl_netRequest` (compiled when `NODE_0_IS_CONVHOST` is 1). -/
def CcsImpl_netRequest (cfg : Config) (hdr : CcsImplHeader) (reqData : List Byte)
    (s : CcsState) : Except Fault CcsState :=
  let repPE := ChMessageInt hdr.pe
  if repPE ≤ -cfg.CmiNumPes ∨ repPE ≥ cfg.CmiNumPes then
    CcsSendReply 0 [] { s with ccsReq := some hdr }
  else
    match CcsImpl_ccs2converse cfg true hdr reqData s with
    | Except.error e => Except.error e
    | Except.ok (msg, len, s1) =>
      if repPE ≥ 0 then
        Except.ok (CmiSyncSendAndFree (Int.tmod repPE cfg.CmiNumPes) len msg s1)
      else if repPE = -1 then
        Except.ok (CmiSyncSendAndFree 0 len msg s1)
      else
        match readChMessageInt reqData with
        | Except.error e => Except.error e
        | Except.ok first =>
          let firstPE := ChMessageInt first
          Except.ok (CmiSyncSendAndFree (Int.tmod firstPE cfg.CmiNumPes) len msg s1)

/-! ## Handler table (`initHandlerRec` .. `CcsGetHandler`) -/

/-- Modelled from the spec: the constant `CCS_MAXHANDLER` is defined outside this
file; handler names are bounded by 32 bytes (the abort message of
`initHandlerRec` names the same number). -/
def CCS_MAXHANDLER : Nat := 32

/-- The C library `strlen` on a handler name: its number of bytes. -/
def strlen (name : String) : Nat := name.utf8ByteSize

/-- The function `initHandlerRec`; returns the record it fills (`redID` is left
unset). -/
def initHandlerRec (name : String) : Except Fault CcsHandlerRec :=
  if strlen name ≥ CCS_MAXHANDLER then
    Except.error (Fault.abort "CCS handler names cannot exceed 32 characters")
  else
    Except.ok
      { name := name, fn := none, fnOld := none, userPtr := none, mergeFn := none
        nCalls := 0, redID := none }

/-- The function `CcsRegisterHandler`; `CkHashtablePut` stores the record under
its name, replacing an older one. -/
def CcsRegisterHandler (name : String) (fn : CmiHandler) (s : CcsState) :
    Except Fault CcsState :=
  match initHandlerRec name with
  | Except.error e => Except.error e
  | Except.ok cp =>
    let cp := { cp with fnOld := some fn }
    Except.ok { s with ccsTab := fun k => if k = cp.name then some cp else s.ccsTab k }

/-- The function `CcsRegisterHandlerFn`. -/
def CcsRegisterHandlerFn (name : String) (fn : CcsHandlerFn) (ptr : Option Nat)
    (s : CcsState) : Except Fault CcsState :=
  match initHandlerRec name with
  | Except.error e => Except.error e
  | Except.ok cp =>
    let cp := { cp with fn := some fn, userPtr := ptr }
    Except.ok { s with ccsTab := fun k => if k = cp.name then some cp else s.ccsTab k }

/-- The function `CcsGetHandler`. -/
def CcsGetHandler (name : String) (s : CcsState) : Option CcsHandlerRec :=
  s.ccsTab name

/-! ## Reduction merges (`CcsMerge_concat`, `SIMPLE_REDUCTION`) -/

/-- One pass of the second loop of `CcsMerge_concat`:
`memcpy(ptr, payload of r, len); ptr += len;` with `room` bytes left in the
block of the reply; returns the bytes copied and the room left behind them.
A copy beyond the block is an invalid access. -/
def concatCopy (r : ConverseMsg) (room : Int) : Except Fault (List Byte × Int) :=
  let len := ChMessageInt r.hdr.len
  if len ≤ room then
    match memcpy r.data len with
    | Except.error e => Except.error e
    | Except.ok bytes => Except.ok (bytes, room - len)
  else Except.error Fault.memory

/-- The second loop of `CcsMerge_concat`: the payload of each remote message is
copied behind the previous one; `room` is the number of bytes left in the block
of the reply. -/
def concatLoop : List ConverseMsg → Int → Except Fault (List Byte)
  | [], _ => Except.ok []
  | r :: rs, room =>
    match concatCopy r room with
    | Except.error e => Except.error e
    | Except.ok (bytes, room1) =>
      match concatLoop rs room1 with
      | Except.error e => Except.error e
      | Except.ok rest => Except.ok (bytes ++ rest)

/-- The function `CcsMerge_concat`; `remote` holds the `n` remote messages and
the result pairs the reply with the value stored through `size`.  The model
covers size arguments that span at least the reserved header and the envelope
of `local` (a smaller one cuts the envelope and is reported as a fault). -/
def CcsMerge_concat (cfg : Config) (size : Int) (local_ : ConverseMsg)
    (remote : List ConverseMsg) : Except Fault (ConverseMsg × Int) :=
  let total := remote.foldl (fun t r => wrap32 (t + ChMessageInt r.hdr.len)) size
  let k := size - cfg.CmiReservedHeaderSize - cfg.sizeofCcsImplHeader
  if k < 0 then Except.error Fault.memory
  else if total < size then Except.error Fault.memory
  else
    match memcpy local_.data k with
    | Except.error e => Except.error e
    | Except.ok head =>
      let hdr := { local_.hdr with
        len := ChMessageInt_new (total - cfg.CmiReservedHeaderSize - cfg.sizeofCcsImplHeader) }
      match concatLoop remote (total - size) with
      | Except.error e => Except.error e
      | Except.ok tail =>
        Except.ok ({ handlerIdx := local_.handlerIdx, hdr := hdr, data := head ++ tail }, total)

/-- A reply message as an elementwise merge sees it: behind reserved header and
envelope lies an array of `dataType`. -/
structure ReductionMsg (α : Type) where
  handlerIdx : Option Int
  hdr : CcsImplHeader
  elems : List α
deriving DecidableEq, Repr

/-- The inner loop `for (i=0; i<nElem; ++i) loop;` of `SIMPLE_REDUCTION` on the
arrays `ret` and `value`; an index beyond either array is an invalid access. -/
def reductionLoop {α : Type} (loop : α → α → α) : Nat → List α → List α → Except Fault (List α)
  | 0, ret, _ => Except.ok ret
  | n + 1, r :: ret, v :: value =>
    match reductionLoop loop n ret value with
    | Except.ok rest => Except.ok (loop r v :: rest)
    | Except.error e => Except.error e
  | _ + 1, _, _ => Except.error Fault.memory

/-- The outer loop `for (m=0; m<n; ++m)` of `SIMPLE_REDUCTION`. -/
def reductionRemotes {α : Type} (loop : α → α → α) (lenLocal nElem : Int) :
    List α → List (ReductionMsg α) → Except Fault (List α)
  | ret, [] => Except.ok ret
  | ret, r :: rs =>
    let len := ChMessageInt r.hdr.len
    match CmiAssert (decide (lenLocal = len)) "lenLocal == len" with
    | Except.error e => Except.error e
    | Except.ok _ =>
      match reductionLoop loop nElem.toNat ret r.elems with
      | Except.error e => Except.error e
      | Except.ok ret1 => reductionRemotes loop lenLocal nElem ret1 rs

/-- The macro `SIMPLE_REDUCTION(name, dataType, loop)`: the body shared by the
functions `CcsMerge_name`.  `sizeofDataType` is `sizeof(dataType)` and `loop`
gives the new `ret[i]` from `ret[i]` and `value[i]`.  The quotient
`lenLocal / sizeof(dataType)` is formed in a 64-bit `size_t`.  The message
`local` is updated in place and returned; `size` is not written. -/
def SIMPLE_REDUCTION {α : Type} (sizeofDataType : Nat) (loop : α → α → α) (size : Int)
    (local_ : ReductionMsg α) (remote : List (ReductionMsg α)) :
    Except Fault (ReductionMsg α × Int) :=
  let lenLocal := ChMessageInt local_.hdr.len
  let nElem := wrap32 ((lenLocal % 18446744073709551616) / (sizeofDataType : Int))
  match reductionRemotes loop lenLocal nElem local_.elems remote with
  | Except.error e => Except.error e
  | Except.ok ret => Except.ok ({ local_ with elems := ret }, size)

/-- The function `CcsMerge_logical_and`. -/
def CcsMerge_logical_and : Int → ReductionMsg Int → List (ReductionMsg Int) →
    Except Fault (ReductionMsg Int × Int) :=
  SIMPLE_REDUCTION 4 (fun r v => if r ≠ 0 ∧ v ≠ 0 then 1 else 0)

/-- The function `CcsMerge_logical_or`. -/
def CcsMerge_logical_or : Int → ReductionMsg Int → List (ReductionMsg Int) →
    Except Fault (ReductionMsg Int × Int) :=
  SIMPLE_REDUCTION 4 (fun r v => if r ≠ 0 ∨ v ≠ 0 then 1 else 0)

/-- The function `CcsMerge_sum_int` (`ret[i]+=value[i]` on 32-bit `int`). -/
def CcsMerge_sum_int : Int → ReductionMsg Int → List (ReductionMsg Int) →
    Except Fault (ReductionMsg Int × Int) :=
  SIMPLE_REDUCTION 4 (fun r v => wrap32 (r + v))

/-- The function `CcsMerge_product_int`. -/
def CcsMerge_product_int : Int → ReductionMsg Int → List (ReductionMsg Int) →
    Except Fault (ReductionMsg Int × Int) :=
  SIMPLE_REDUCTION 4 (fun r v => wrap32 (r * v))

/-- The function `CcsMerge_max_int`. -/
def CcsMerge_max_int : Int → ReductionMsg Int → List (ReductionMsg Int) →
    Except Fault (ReductionMsg Int × Int) :=
  SIMPLE_REDUCTION 4 (fun r v => if r < v then v else r)

/-- The function `CcsMerge_min_int`. -/
def CcsMerge_min_int : Int → ReductionMsg Int → List (ReductionMsg Int) →
    Except Fault (ReductionMsg Int × Int) :=
  SIMPLE_REDUCTION 4 (fun r v => if r > v then v else r)

/-! ## Release of the startup buffer, reply forwarding -/

/-- The loop of `CcsReleaseMessages` over `bufferedMessages[0 .. n-1]`: each
message gets the handler index `idx` and is enqueued; an entry that was never
stored is an invalid pointer. -/
def releaseLoop (idx : Int) : Nat → List (Option ConverseMsg) → CcsState → Except Fault CcsState
  | 0, _, s => Except.ok s
  | n + 1, some m :: rest, s =>
    releaseLoop idx n rest (CsdEnqueue { m with handlerIdx := some idx } s)
  | _ + 1, _, _ => Except.error Fault.memory

/-- The function `CcsReleaseMessages`; `convhost` is the build flag
`NODE_0_IS_CONVHOST`, under which the body is empty. -/
def CcsReleaseMessages (convhost : Bool) (s : CcsState) : Except Fault CcsState :=
  if convhost then Except.ok s
  else if s.CcsNumBufferedMsgs > 0 then
    match s.bufferedMessages with
    | none => Except.error Fault.memory
    | some arr =>
      match releaseLoop s._ccsHandlerIdx s.CcsNumBufferedMsgs.toNat arr s with
      | Except.error e => Except.error e
      | Except.ok s1 => Except.ok { s1 with bufferedMessages := none, CcsNumBufferedMsgs := -1 }
  else Except.ok s

/-- The function `CcsImpl_reply` (compiled when `NODE_0_IS_CONVHOST` is 1). -/
def CcsImpl_reply (cfg : Config) (rep : CcsImplHeader) (repLen : Int) (repData : List Byte)
    (s : CcsState) : Except Fault CcsState :=
  let repPE : Int := 0
  let rep := { rep with len := ChMessageInt_new repLen }
  if cfg.CmiMyPe = repPE then
    Except.ok (CcsServer_sendReply rep repLen repData s)
  else
    let need : Int := cfg.CmiReservedHeaderSize + cfg.sizeofCcsImplHeader + repLen
    let len := wrap32 need
    if len < need then Except.error Fault.memory
    else
      match memcpy repData repLen with
      | Except.error e => Except.error e
      | Except.ok r =>
        let msg : ConverseMsg :=
          { handlerIdx := some s.rep_fw_handler_idx, hdr := rep, data := r }
        Except.ok (CmiSyncSendAndFree repPE len (some msg) s)

/-- The function `rep_fw_handler`. -/
def rep_fw_handler (cfg : Config) (msg : ConverseMsg) (s : CcsState) : Except Fault CcsState :=
  let hdr := msg.hdr
  let r := msg.data
  let len := ChMessageInt hdr.len
  CcsImpl_reply cfg hdr len r s

/-- The array `bufferedMessages` as `CcsBufferMessage` uses it: a fresh block of
100 unset entries when the pointer is still `NULL`. -/
def bufferArray (s : CcsState) : List (Option ConverseMsg) :=
  match s.bufferedMessages with
  | none => List.replicate CCS_MAX_NUM_BUFFERED_MSGS.toNat none
  | some a => a

/-- A sequence of calls of `CcsBufferMessage`, one per message, in order. -/
def bufferAll : List ConverseMsg → CcsState → Except Fault CcsState
  | [], s => Except.ok s
  | m :: ms, s =>
    match CcsBufferMessage m s with
    | Except.ok s1 => bufferAll ms s1
    | Except.error e => Except.error e

/-! ## Input contracts and concrete inputs used in the statements -/

/-- The request data holds what the envelope declares: `payloadLength ≥ 0`
bytes of payload, preceded for a multicast selector `s < -1` by the list of
`-s` four-byte PE indices; and the packed message length fits an `int`. -/
def WellFormedRequest (cfg : Config) (hdr : CcsImplHeader) (reqData : List Byte) : Prop :=
  0 ≤ ChMessageInt hdr.len ∧
  ChMessageInt hdr.len
      + (if ChMessageInt hdr.pe < -1 then 4 * (-(ChMessageInt hdr.pe)) else 0)
    ≤ (reqData.length : Int) ∧
  (cfg.CmiReservedHeaderSize : Int) + cfg.sizeofCcsImplHeader + ChMessageInt hdr.len
      + (if ChMessageInt hdr.pe < -1 then 4 * (-(ChMessageInt hdr.pe)) else 0)
    < 2147483648

instance (cfg : Config) (hdr : CcsImplHeader) (reqData : List Byte) :
    Decidable (WellFormedRequest cfg hdr reqData) := by
  unfold WellFormedRequest; infer_instance

/-- The number of data bytes a well-formed request carries behind its envelope
in the packed message: the PE list of a multicast request and the payload. -/
def packedDataLen (hdr : CcsImplHeader) : Int :=
  ChMessageInt hdr.len
    + (if ChMessageInt hdr.pe < -1 then 4 * (-(ChMessageInt hdr.pe)) else 0)

/-- The message `CcsImpl_ccs2converse` builds for a well-formed request once
the request-forwarding handler has index `idx`: the envelope unchanged, then the
declared data bytes, tagged with `idx`. -/
def packedMsg (idx : Int) (hdr : CcsImplHeader) (reqData : List Byte) : ConverseMsg :=
  { handlerIdx := some idx, hdr := hdr, data := reqData.take (packedDataLen hdr).toNat }

/-- The length of that message: reserved header, envelope, data bytes. -/
def packedLen (cfg : Config) (hdr : CcsImplHeader) : Int :=
  (cfg.CmiReservedHeaderSize : Int) + cfg.sizeofCcsImplHeader + packedDataLen hdr

/-- The calls the callback of record `c` makes when `callHandlerRec` invokes it
on `(reqLen, reqData)`; `none` when the invocation itself faults. -/
def handlerScript (c : CcsHandlerRec) (reqLen : Int) (reqData : List Byte) :
    Option (List HandlerCall) :=
  match c.fnOld with
  | some fnOld =>
    match memcpy reqData reqLen with
    | Except.ok cmsg => some (fnOld cmsg)
    | Except.error _ => none
  | none =>
    match c.fn with
    | some fn => some (fn c.userPtr reqLen reqData)
    | none => none

/-- A sequence of complete dispatches of `CcsHandleRequest` on one context; each
request comes with the number of bytes readable behind its envelope. -/
def runDispatches (cfg : Config) :
    List (CcsImplHeader × List Byte × Nat) → CcsState → Except Fault CcsState
  | [], s => Except.ok s
  | (hdr, reqData, tail) :: rest, s =>
    match CcsHandleRequest cfg hdr reqData { s with ccsReqTail := tail } with
    | Except.ok s1 => runDispatches cfg rest s1
    | Except.error e => Except.error e

/-- A job of 4 PEs; reserved header of 16 bytes, envelope of 56 bytes. -/
def demoCfg : Config :=
  { CmiReservedHeaderSize := 16, sizeofCcsImplHeader := 56, CmiNumPes := 4, CmiMyPe := 0 }

/-- A request envelope from client 127.0.0.1:4000 for handler "echo". -/
def demoHdr (pe len : Int) : CcsImplHeader :=
  { attr := { ip := [127, 0, 0, 1], port := ChMessageInt_new 4000 }
    handler := "echo"
    pe := ChMessageInt_new pe
    len := ChMessageInt_new len }

/-- A `CcsHandlerFn` record that replies with a copy of the request data. -/
def echoRec : CcsHandlerRec :=
  { name := "echo"
    fn := some (fun _ n d => [HandlerCall.SendReply n d])
    fnOld := none
    userPtr := none
    mergeFn := none
    nCalls := 0
    redID := none }

/-- A `CcsHandlerFn` record that takes a delayed-reply token and returns. -/
def laterRec : CcsHandlerRec :=
  { name := "later"
    fn := some (fun _ _ _ => [HandlerCall.DelayReply])
    fnOld := none
    userPtr := none
    mergeFn := none
    nCalls := 0
    redID := none }

/-- An initialized context with handlers "echo" and "later", nothing pending. -/
def demoState : CcsState :=
  { ccsTab := fun k => if k = "echo" then some echoRec
                       else if k = "later" then some laterRec else none
    ccsReq := none
    ccsReqTail := 0
    bufferedMessages := none
    CcsNumBufferedMsgs := 0
    _ccsHandlerIdx := 7
    rep_fw_handler_idx := 8
    replies := []
    sends := []
    tokens := []
    invoked := []
    enqueued := []
    delivered := [] }

/-- The context of `demoState` before initialization: the request-forwarding
handler index is still 0, nothing is buffered. -/
def startupState : CcsState :=
  { demoState with _ccsHandlerIdx := 0 }

/-- A packed request for PE `pe` with the one payload byte `b`, not yet tagged
with a handler. -/
def rawMsg (pe : Int) (b : Byte) : ConverseMsg :=
  { handlerIdx := none, hdr := demoHdr pe 1, data := [b] }

/-! ## Basic facts -/

theorem wrap32_of_range (x : Int) (h1 : -2147483648 ≤ x) (h2 : x < 2147483648) :
    wrap32 x = x := by
  unfold wrap32; omega

theorem wrap32_lower (x : Int) : -2147483648 ≤ wrap32 x := by
  unfold wrap32; omega

theorem wrap32_upper (x : Int) : wrap32 x < 2147483648 := by
  unfold wrap32; omega

theorem ChMessageInt_lower (m : ChMessageInt_t) : -2147483648 ≤ ChMessageInt m :=
  wrap32_lower _

theorem ChMessageInt_upper (m : ChMessageInt_t) : ChMessageInt m < 2147483648 :=
  wrap32_upper _

theorem CcsSendReply_pending (replyLen : Int) (replyData : List Byte) (s : CcsState)
    (req : CcsImplHeader) (h : s.ccsReq = some req) :
    CcsSendReply replyLen replyData s =
      Except.ok { s with
        ccsReq := none
        replies := s.replies ++
          [{ rep := { req with len := ChMessageInt_new 1 }
             repLen := replyLen, repData := replyData }] } := by
  simp [CcsSendReply, CcsReply, h]

theorem ccs2converse_initialized (cfg : Config) (convhost : Bool) (hdr : CcsImplHeader)
    (reqData : List Byte) (s : CcsState)
    (hinit : s._ccsHandlerIdx ≠ 0) (hwf : WellFormedRequest cfg hdr reqData) :
    CcsImpl_ccs2converse cfg convhost hdr reqData s =
      Except.ok (some (packedMsg s._ccsHandlerIdx hdr reqData), packedLen cfg hdr, s) := by
  obtain ⟨h0, h1, h2⟩ := hwf
  have hu := ChMessageInt_upper hdr.len
  have hreq : (if ChMessageInt hdr.pe < -1
      then wrap32 (ChMessageInt hdr.len - ChMessageInt hdr.pe * 4)
      else ChMessageInt hdr.len) = packedDataLen hdr := by
    unfold packedDataLen
    split
    · rename_i hlt
      simp only [hlt, if_true] at h2
      rw [wrap32_of_range _ (by omega) (by omega)]
      omega
    · omega
  have hpos : 0 ≤ packedDataLen hdr := by
    unfold packedDataLen; split <;> omega
  have hfit : packedDataLen hdr ≤ (reqData.length : Int) := h1
  have hneed : wrap32 ((cfg.CmiReservedHeaderSize : Int) + cfg.sizeofCcsImplHeader
      + packedDataLen hdr) = packedLen cfg hdr := by
    unfold packedLen
    apply wrap32_of_range
    · omega
    · unfold packedDataLen; omega
  rw [CcsImpl_ccs2converse, hreq, hneed]
  have hnot : ¬ (packedLen cfg hdr < (cfg.CmiReservedHeaderSize : Int)
      + cfg.sizeofCcsImplHeader + packedDataLen hdr) := by
    unfold packedLen; omega
  have hm : memcpy reqData (packedDataLen hdr)
      = Except.ok (reqData.take (packedDataLen hdr).toNat) := by
    unfold memcpy
    rw [if_pos ⟨hpos, hfit⟩]
    rfl
  rw [if_neg hnot, hm]
  show (if s._ccsHandlerIdx ≠ 0 then _ else _) = _
  rw [if_pos hinit]
  unfold packedMsg
  dsimp only

theorem readChMessageInt_of_length (p : List Byte) (h : 4 ≤ p.length) :
    ∃ first, readChMessageInt p = Except.ok first := by
  match p, h with
  | b0 :: b1 :: b2 :: b3 :: _, _ => exact ⟨⟨b0, b1, b2, b3⟩, rfl⟩

theorem netRequest_accepted (cfg : Config) (hdr : CcsImplHeader) (reqData : List Byte)
    (s : CcsState) (hlo : -cfg.CmiNumPes < ChMessageInt hdr.pe)
    (hhi : ChMessageInt hdr.pe < cfg.CmiNumPes)
    (hinit : s._ccsHandlerIdx ≠ 0) (hwf : WellFormedRequest cfg hdr reqData) :
    CcsImpl_netRequest cfg hdr reqData s =
      (if ChMessageInt hdr.pe ≥ 0 then
        Except.ok (CmiSyncSendAndFree (Int.tmod (ChMessageInt hdr.pe) cfg.CmiNumPes)
          (packedLen cfg hdr) (some (packedMsg s._ccsHandlerIdx hdr reqData)) s)
      else if ChMessageInt hdr.pe = -1 then
        Except.ok (CmiSyncSendAndFree 0
          (packedLen cfg hdr) (some (packedMsg s._ccsHandlerIdx hdr reqData)) s)
      else
        match readChMessageInt reqData with
        | Except.error e => Except.error e
        | Except.ok first =>
          Except.ok (CmiSyncSendAndFree (Int.tmod (ChMessageInt first) cfg.CmiNumPes)
            (packedLen cfg hdr) (some (packedMsg s._ccsHandlerIdx hdr reqData)) s)) := by
  have hc : ¬ (ChMessageInt hdr.pe ≤ -cfg.CmiNumPes ∨ ChMessageInt hdr.pe ≥ cfg.CmiNumPes) := by
    omega
  rw [CcsImpl_netRequest, if_neg hc, ccs2converse_initialized cfg true hdr reqData s hinit hwf]

theorem netRequest_rejected (cfg : Config) (hdr : CcsImplHeader) (reqData : List Byte)
    (s : CcsState)
    (hc : ChMessageInt hdr.pe ≤ -cfg.CmiNumPes ∨ ChMessageInt hdr.pe ≥ cfg.CmiNumPes) :
    CcsImpl_netRequest cfg hdr reqData s =
      Except.ok { s with
        ccsReq := none
        replies := s.replies ++
          [{ rep := { hdr with len := ChMessageInt_new 1 }, repLen := 0, repData := [] }] } := by
  rw [CcsImpl_netRequest, if_pos hc]
  exact CcsSendReply_pending 0 [] _ hdr rfl

theorem netRequest_accepted_sends (cfg : Config) (hdr : CcsImplHeader) (reqData : List Byte)
    (s : CcsState) (hlo : -cfg.CmiNumPes < ChMessageInt hdr.pe)
    (hhi : ChMessageInt hdr.pe < cfg.CmiNumPes)
    (hinit : s._ccsHandlerIdx ≠ 0) (hwf : WellFormedRequest cfg hdr reqData) :
    ∃ dest, CcsImpl_netRequest cfg hdr reqData s =
        Except.ok (CmiSyncSendAndFree dest (packedLen cfg hdr)
          (some (packedMsg s._ccsHandlerIdx hdr reqData)) s) ∧
      (0 ≤ ChMessageInt hdr.pe → dest = Int.tmod (ChMessageInt hdr.pe) cfg.CmiNumPes) ∧
      (ChMessageInt hdr.pe = -1 → dest = 0) ∧
      (ChMessageInt hdr.pe < -1 → ∃ first, readChMessageInt reqData = Except.ok first ∧
        dest = Int.tmod (ChMessageInt first) cfg.CmiNumPes) := by
  have hrun := netRequest_accepted cfg hdr reqData s hlo hhi hinit hwf
  by_cases h0 : ChMessageInt hdr.pe ≥ 0
  · rw [if_pos h0] at hrun
    exact ⟨_, hrun, fun _ => rfl, fun h => by omega, fun h => by omega⟩
  · rw [if_neg h0] at hrun
    by_cases h1 : ChMessageInt hdr.pe = -1
    · rw [if_pos h1] at hrun
      exact ⟨_, hrun, fun h => by omega, fun _ => rfl, fun h => by omega⟩
    · rw [if_neg h1] at hrun
      have hlt : ChMessageInt hdr.pe < -1 := by omega
      have hlen : 4 ≤ reqData.length := by
        obtain ⟨w0, w1, _⟩ := hwf
        rw [if_pos hlt] at w1
        omega
      obtain ⟨first, hfirst⟩ := readChMessageInt_of_length reqData hlen
      rw [hfirst] at hrun
      exact ⟨_, hrun, fun h => by omega, fun h => by omega, fun _ => ⟨first, hfirst, rfl⟩⟩

/-! ## Request router: addressing -/

/-- C1: for every number of PEs and every request whose selector is `-N`, below
`-N`, or at least `N`, `CcsImpl_netRequest` returns having called `CcsReply`
exactly once, with length 0 and no data, on the envelope of the request (whose
`len` field `CcsSendReply` has overwritten with the reply mark 1, every other
field being that of the request); no call of `CmiSyncSendAndFree` is made and
the slot `ccsReq` is empty on return. -/
theorem netRequest_addressing_error (cfg : Config) (hdr : CcsImplHeader)
    (reqData : List Byte) (s : CcsState)
    (hsel : ChMessageInt hdr.pe = -cfg.CmiNumPes ∨ ChMessageInt hdr.pe < -cfg.CmiNumPes ∨
      ChMessageInt hdr.pe ≥ cfg.CmiNumPes) :
    ∃ s1, CcsImpl_netRequest cfg hdr reqData s = Except.ok s1 ∧
      s1.replies = s.replies ++
        [{ rep := { hdr with len := ChMessageInt_new 1 }, repLen := 0, repData := [] }] ∧
      s1.sends = s.sends ∧
      s1.ccsReq = none := by
  have hc : ChMessageInt hdr.pe ≤ -cfg.CmiNumPes ∨ ChMessageInt hdr.pe ≥ cfg.CmiNumPes := by
    omega
  exact ⟨_, netRequest_rejected cfg hdr reqData s hc, rfl, rfl, rfl⟩

/-- C1 at a concrete input: 4 PEs, selector 4. -/
theorem netRequest_addressing_error_witness :
    ChMessageInt (demoHdr 4 2).pe ≥ demoCfg.CmiNumPes ∧
    ∃ s1, CcsImpl_netRequest demoCfg (demoHdr 4 2) [104, 105] demoState = Except.ok s1 ∧
      s1.replies = demoState.replies ++
        [{ rep := { demoHdr 4 2 with len := ChMessageInt_new 1 }, repLen := 0, repData := [] }] ∧
      s1.sends = demoState.sends ∧
      s1.ccsReq = none :=
  ⟨by decide,
   netRequest_addressing_error demoCfg (demoHdr 4 2) [104, 105] demoState
     (Or.inr (Or.inr (by decide)))⟩

/-- C2, as stated, fails at the lower end of the range: with 4 PEs the selector
`-4` lies in `[-N, N-1]`, the request is well formed and the router is
initialized, yet `CcsImpl_netRequest` forwards nothing and answers with the
empty addressing-error reply. -/
theorem netRequest_selector_minus_N_not_routed :
    -demoCfg.CmiNumPes ≤ ChMessageInt (demoHdr (-4) 2).pe ∧
    ChMessageInt (demoHdr (-4) 2).pe ≤ demoCfg.CmiNumPes - 1 ∧
    WellFormedRequest demoCfg (demoHdr (-4) 2)
      [0, 0, 0, 0, 0, 0, 0, 1, 0, 0, 0, 2, 0, 0, 0, 3, 104, 105] ∧
    demoState._ccsHandlerIdx ≠ 0 ∧
    ∃ s1, CcsImpl_netRequest demoCfg (demoHdr (-4) 2)
        [0, 0, 0, 0, 0, 0, 0, 1, 0, 0, 0, 2, 0, 0, 0, 3, 104, 105] demoState = Except.ok s1 ∧
      s1.sends = [] ∧
      s1.replies =
        [{ rep := { demoHdr (-4) 2 with len := ChMessageInt_new 1 }, repLen := 0, repData := [] }] :=
  ⟨by decide, by decide, by decide, by decide,
   _, netRequest_rejected demoCfg (demoHdr (-4) 2) _ demoState (Or.inl (by decide)), rfl, rfl⟩

/-- C2 (amended): on an initialized router, every well-formed request whose
selector `s` satisfies `-N < s ≤ N-1` is routed by `CcsImpl_netRequest`: it
returns after exactly one `CmiSyncSendAndFree` whose message is the packed
request (envelope unchanged, the declared data bytes, tagged with the
request-forwarding handler) with its length, and no reply is emitted. -/
theorem netRequest_routes_open_range (cfg : Config) (hdr : CcsImplHeader)
    (reqData : List Byte) (s : CcsState)
    (hlo : -cfg.CmiNumPes < ChMessageInt hdr.pe)
    (hhi : ChMessageInt hdr.pe ≤ cfg.CmiNumPes - 1)
    (hinit : s._ccsHandlerIdx ≠ 0) (hwf : WellFormedRequest cfg hdr reqData) :
    ∃ s1 dest, CcsImpl_netRequest cfg hdr reqData s = Except.ok s1 ∧
      s1.sends = s.sends ++
        [{ destPE := dest
           len := (cfg.CmiReservedHeaderSize : Int) + cfg.sizeofCcsImplHeader + packedDataLen hdr
           msg := some { handlerIdx := some s._ccsHandlerIdx
                         hdr := hdr
                         data := reqData.take (packedDataLen hdr).toNat } }] ∧
      s1.replies = s.replies ∧
      s1.ccsReq = s.ccsReq := by
  obtain ⟨dest, hrun, _⟩ :=
    netRequest_accepted_sends cfg hdr reqData s hlo (by omega) hinit hwf
  exact ⟨_, dest, hrun, rfl, rfl, rfl⟩

/-- C2 (amended) at a concrete input: 4 PEs, selector 3, payload "hi". -/
theorem netRequest_routes_open_range_witness :
    ∃ s1 dest, CcsImpl_netRequest demoCfg (demoHdr 3 2) [104, 105] demoState = Except.ok s1 ∧
      s1.sends = demoState.sends ++
        [{ destPE := dest
           len := (demoCfg.CmiReservedHeaderSize : Int) + demoCfg.sizeofCcsImplHeader
             + packedDataLen (demoHdr 3 2)
           msg := some { handlerIdx := some demoState._ccsHandlerIdx
                         hdr := demoHdr 3 2
                         data := List.take (packedDataLen (demoHdr 3 2)).toNat [104, 105] } }] ∧
      s1.replies = demoState.replies ∧
      s1.ccsReq = demoState.ccsReq :=
  netRequest_routes_open_range demoCfg (demoHdr 3 2) [104, 105] demoState
    (by decide) (by decide) (by decide) (by decide)

/-! ## Request router: destinations -/

/-- C3: on an initialized router with `N` PEs, for every accepted well-formed
request (`-N < s < N`) `CcsImpl_netRequest` returns after exactly one
`CmiSyncSendAndFree`; when `s ≥ 0` its destination is the C remainder `s % N`,
which equals `s`; when `s = -1` its destination is PE 0. -/
theorem netRequest_unicast_broadcast_destination (cfg : Config) (hdr : CcsImplHeader)
    (reqData : List Byte) (s : CcsState)
    (hlo : -cfg.CmiNumPes < ChMessageInt hdr.pe)
    (hhi : ChMessageInt hdr.pe < cfg.CmiNumPes)
    (hinit : s._ccsHandlerIdx ≠ 0) (hwf : WellFormedRequest cfg hdr reqData) :
    ∃ s1 c, CcsImpl_netRequest cfg hdr reqData s = Except.ok s1 ∧
      s1.sends = s.sends ++ [c] ∧
      (0 ≤ ChMessageInt hdr.pe →
        c.destPE = Int.tmod (ChMessageInt hdr.pe) cfg.CmiNumPes ∧
        c.destPE = ChMessageInt hdr.pe % cfg.CmiNumPes ∧
        c.destPE = ChMessageInt hdr.pe) ∧
      (ChMessageInt hdr.pe = -1 → c.destPE = 0) := by
  obtain ⟨dest, hrun, hu, hb, _⟩ :=
    netRequest_accepted_sends cfg hdr reqData s hlo hhi hinit hwf
  refine ⟨_, ⟨dest, packedLen cfg hdr, some (packedMsg s._ccsHandlerIdx hdr reqData)⟩,
    hrun, rfl, ?_, hb⟩
  intro h0
  have ht : Int.tmod (ChMessageInt hdr.pe) cfg.CmiNumPes = ChMessageInt hdr.pe :=
    Int.tmod_eq_of_lt h0 hhi
  have he : ChMessageInt hdr.pe % cfg.CmiNumPes = ChMessageInt hdr.pe :=
    Int.emod_eq_of_lt h0 hhi
  show dest = _ ∧ dest = _ ∧ dest = _
  rw [hu h0, ht, he]
  exact ⟨rfl, rfl, rfl⟩

/-- C3 at a concrete input: 4 PEs, broadcast selector -1, payload "hi". -/
theorem netRequest_unicast_broadcast_destination_witness :
    ∃ s1 c, CcsImpl_netRequest demoCfg (demoHdr (-1) 2) [104, 105] demoState = Except.ok s1 ∧
      s1.sends = demoState.sends ++ [c] ∧
      (0 ≤ ChMessageInt (demoHdr (-1) 2).pe →
        c.destPE = Int.tmod (ChMessageInt (demoHdr (-1) 2).pe) demoCfg.CmiNumPes ∧
        c.destPE = ChMessageInt (demoHdr (-1) 2).pe % demoCfg.CmiNumPes ∧
        c.destPE = ChMessageInt (demoHdr (-1) 2).pe) ∧
      (ChMessageInt (demoHdr (-1) 2).pe = -1 → c.destPE = 0) :=
  netRequest_unicast_broadcast_destination demoCfg (demoHdr (-1) 2) [104, 105] demoState
    (by decide) (by decide) (by decide) (by decide)

/-- C4: on an initialized router with `N` PEs, for every accepted well-formed
multicast request (`-N < s ≤ -2`, the data starting with the list of `-s`
four-byte PE indices) `CcsImpl_netRequest` returns after exactly one
`CmiSyncSendAndFree`; its destination is the C remainder `first % N` of the
first list entry, which is that first PE index itself, as the entry is the
index of one of the `N` PEs (`0 ≤ first < N`). -/
theorem netRequest_multicast_destination (cfg : Config) (hdr : CcsImplHeader)
    (reqData : List Byte) (s : CcsState) (first : ChMessageInt_t)
    (hlo : -cfg.CmiNumPes < ChMessageInt hdr.pe)
    (hmc : ChMessageInt hdr.pe ≤ -2)
    (hinit : s._ccsHandlerIdx ≠ 0) (hwf : WellFormedRequest cfg hdr reqData)
    (hfirst : readChMessageInt reqData = Except.ok first)
    (hidx : 0 ≤ ChMessageInt first ∧ ChMessageInt first < cfg.CmiNumPes) :
    ∃ s1 c, CcsImpl_netRequest cfg hdr reqData s = Except.ok s1 ∧
      s1.sends = s.sends ++ [c] ∧
      c.destPE = Int.tmod (ChMessageInt first) cfg.CmiNumPes ∧
      c.destPE = ChMessageInt first := by
  obtain ⟨dest, hrun, _, _, hm⟩ :=
    netRequest_accepted_sends cfg hdr reqData s hlo (by omega) hinit hwf
  obtain ⟨f, hf, hdest⟩ := hm (by omega)
  have hff : f = first := by
    rw [hfirst] at hf
    exact (Except.ok.inj hf).symm
  subst hff
  refine ⟨_, ⟨dest, packedLen cfg hdr, some (packedMsg s._ccsHandlerIdx hdr reqData)⟩,
    hrun, rfl, hdest, ?_⟩
  show dest = _
  rw [hdest]
  exact Int.tmod_eq_of_lt hidx.1 hidx.2

/-- C4 at a concrete input: 4 PEs, selector -2, PE list (1, 3), payload "hi". -/
theorem netRequest_multicast_destination_witness :
    ∃ s1 c, CcsImpl_netRequest demoCfg (demoHdr (-2) 2) [0, 0, 0, 1, 0, 0, 0, 3, 104, 105]
        demoState = Except.ok s1 ∧
      s1.sends = demoState.sends ++ [c] ∧
      c.destPE = Int.tmod (ChMessageInt (ChMessageInt_new 1)) demoCfg.CmiNumPes ∧
      c.destPE = ChMessageInt (ChMessageInt_new 1) :=
  netRequest_multicast_destination demoCfg (demoHdr (-2) 2)
    [0, 0, 0, 1, 0, 0, 0, 3, 104, 105] demoState (ChMessageInt_new 1)
    (by decide) (by decide) (by decide) (by decide) rfl (by decide)

/-! ## Reply surface and dispatch -/

theorem CcsNoReply_pending (s : CcsState) (req : CcsImplHeader) (h : s.ccsReq = some req) :
    CcsNoReply s =
      Except.ok { s with
        ccsReq := none
        replies := s.replies ++
          [{ rep := { req with len := ChMessageInt_new 0 }, repLen := 0, repData := [] }] } := by
  simp [CcsNoReply, CcsReply, h]

theorem CcsSendReply_empty_slot (replyLen : Int) (replyData : List Byte) (s : CcsState)
    (h : s.ccsReq = none) :
    CcsSendReply replyLen replyData s
      = Except.error (Fault.abort "CcsSendReply: reply already sent!") := by
  simp [CcsSendReply, h]

theorem runCall_balance (cfg : Config) (c : HandlerCall) (s s1 : CcsState)
    (h : runCall cfg c s = Except.ok s1) :
    ∃ rs ts, s1.replies = s.replies ++ rs ∧ s1.tokens = s.tokens ++ ts ∧
      rs.length + ts.length + (if s1.ccsReq.isSome then 1 else 0)
        = (if s.ccsReq.isSome then 1 else 0) := by
  cases hreq : s.ccsReq with
  | none =>
    cases c with
    | SendReply n d =>
      rw [runCall, CcsSendReply_empty_slot n d s hreq] at h
      cases h
    | SendReplyNoError n d =>
      simp only [runCall, CcsSendReplyNoError, hreq] at h
      cases h
      exact ⟨[], [], by simp, by simp, by simp [hreq]⟩
    | NoReply =>
      simp only [runCall, CcsNoReply, hreq] at h
      cases h
      exact ⟨[], [], by simp, by simp, by simp [hreq]⟩
    | DelayReply =>
      simp only [runCall, CcsDelayReply, hreq] at h
      cases h
  | some req =>
    cases c with
    | SendReply n d =>
      rw [runCall, CcsSendReply_pending n d s req hreq] at h
      cases h
      exact ⟨[_], [], rfl, by simp, by simp⟩
    | SendReplyNoError n d =>
      simp only [runCall, CcsSendReplyNoError, hreq] at h
      rw [CcsSendReply_pending n d s req hreq] at h
      cases h
      exact ⟨[_], [], rfl, by simp, by simp⟩
    | NoReply =>
      rw [runCall, CcsNoReply_pending s req hreq] at h
      cases h
      exact ⟨[_], [], rfl, by simp, by simp⟩
    | DelayReply =>
      simp only [runCall, CcsDelayReply, hreq] at h
      by_cases hneg : CcsDelayReply_len cfg (ChMessageInt req.pe) < 0
      · rw [if_pos hneg] at h
        cases h
      · rw [if_neg hneg] at h
        by_cases hroom : CcsDelayReply_len cfg (ChMessageInt req.pe)
            ≤ (cfg.sizeofCcsImplHeader : Int) + s.ccsReqTail
        · rw [if_pos hroom] at h
          cases h
          exact ⟨[], [_], by simp, rfl, by simp⟩
        · rw [if_neg hroom] at h
          cases h

theorem runHandler_balance (cfg : Config) (script : List HandlerCall) :
    ∀ (s s1 : CcsState), runHandler cfg script s = Except.ok s1 →
    ∃ rs ts, s1.replies = s.replies ++ rs ∧ s1.tokens = s.tokens ++ ts ∧
      rs.length + ts.length + (if s1.ccsReq.isSome then 1 else 0)
        = (if s.ccsReq.isSome then 1 else 0) := by
  induction script with
  | nil =>
    intro s s1 h
    rw [runHandler] at h
    cases h
    exact ⟨[], [], by simp, by simp, by simp⟩
  | cons c cs ih =>
    intro s s1 h
    rw [runHandler] at h
    cases hc : runCall cfg c s with
    | error e =>
      rw [hc] at h
      cases h
    | ok s2 =>
      rw [hc] at h
      obtain ⟨rs1, ts1, hr1, ht1, hb1⟩ := runCall_balance cfg c s s2 hc
      obtain ⟨rs2, ts2, hr2, ht2, hb2⟩ := ih s2 s1 h
      refine ⟨rs1 ++ rs2, ts1 ++ ts2, ?_, ?_, ?_⟩
      · rw [hr2, hr1, List.append_assoc]
      · rw [ht2, ht1, List.append_assoc]
      · simp only [List.length_append]
        omega

theorem memcpy_error (src : List Byte) (n : Int) (e : Fault)
    (h : memcpy src n = Except.error e) : e = Fault.memory := by
  unfold memcpy at h
  split at h
  · cases h
  · cases h
    rfl

theorem callHandlerRec_script (cfg : Config) (key : String) (c : CcsHandlerRec) (reqLen : Int)
    (reqData : List Byte) (s : CcsState) :
    callHandlerRec cfg key c reqLen reqData s =
      match handlerScript c reqLen reqData with
      | some script =>
        runHandler cfg script
          { s with
            ccsTab := fun k => if k = key then some { c with nCalls := c.nCalls + 1 }
                               else s.ccsTab k
            invoked := s.invoked ++ [key] }
      | none => Except.error Fault.memory := by
  unfold callHandlerRec handlerScript
  cases hold : c.fnOld with
  | some fnOld =>
    cases hm : memcpy reqData reqLen with
    | error e =>
      have he := memcpy_error reqData reqLen e hm
      subst he
      rfl
    | ok cmsg => rfl
  | none =>
    cases hfn : c.fn with
    | some fn => rfl
    | none => rfl

theorem handleRequest_registered (cfg : Config) (hdr : CcsImplHeader) (reqData : List Byte)
    (s : CcsState) (c : CcsHandlerRec) (script : List HandlerCall)
    (hreg : s.ccsTab hdr.handler = some c)
    (hscript : handlerScript c (ChMessageInt hdr.len) reqData = some script) :
    CcsHandleRequest cfg hdr reqData s =
      match runHandler cfg script
          { s with
            ccsReq := some hdr
            ccsTab := fun k => if k = hdr.handler then some { c with nCalls := c.nCalls + 1 }
                               else s.ccsTab k
            invoked := s.invoked ++ [hdr.handler] } with
      | Except.error e => Except.error e
      | Except.ok s1 =>
        match s1.ccsReq with
        | some _ => CcsSendReply 0 [] s1
        | none => Except.ok s1 := by
  unfold CcsHandleRequest
  simp only [hreg]
  rw [callHandlerRec_script, hscript]

theorem handleRequest_unregistered (cfg : Config) (hdr : CcsImplHeader) (reqData : List Byte)
    (s : CcsState) (hnone : s.ccsTab hdr.handler = none) :
    CcsHandleRequest cfg hdr reqData s =
      Except.ok { s with
        ccsReq := none
        replies := s.replies ++
          [{ rep := { hdr with len := ChMessageInt_new 1 }, repLen := 0, repData := [] }] } := by
  unfold CcsHandleRequest
  simp only [hnone]
  exact CcsSendReply_pending 0 [] _ hdr rfl

/-- C5: for every request to a registered handler name and every handler body
(a finite sequence of `CcsSendReply`, `CcsSendReplyNoError`, `CcsNoReply`,
`CcsDelayReply` calls), a `CcsHandleRequest` that returns has emitted replies
`rs` and handed out tokens `ts` with `|rs| + |ts| = 1`, and the slot is empty.
A body with no call yields exactly one empty reply; a body that replies once
with `(n, p)` yields exactly that reply and no automatic empty reply. -/
theorem handleRequest_one_reply_or_token (cfg : Config) (hdr : CcsImplHeader)
    (reqData : List Byte) (s : CcsState) (c : CcsHandlerRec)
    (hreg : s.ccsTab hdr.handler = some c) :
    (∀ s1, CcsHandleRequest cfg hdr reqData s = Except.ok s1 →
      ∃ rs ts, s1.replies = s.replies ++ rs ∧ s1.tokens = s.tokens ++ ts ∧
        rs.length + ts.length = 1 ∧ s1.ccsReq = none) ∧
    (handlerScript c (ChMessageInt hdr.len) reqData = some [] →
      ∃ s1, CcsHandleRequest cfg hdr reqData s = Except.ok s1 ∧
        s1.replies = s.replies ++
          [{ rep := { hdr with len := ChMessageInt_new 1 }, repLen := 0, repData := [] }] ∧
        s1.tokens = s.tokens) ∧
    (∀ n p, handlerScript c (ChMessageInt hdr.len) reqData = some [HandlerCall.SendReply n p] →
      ∃ s1, CcsHandleRequest cfg hdr reqData s = Except.ok s1 ∧
        s1.replies = s.replies ++
          [{ rep := { hdr with len := ChMessageInt_new 1 }, repLen := n, repData := p }] ∧
        s1.tokens = s.tokens) := by
  refine ⟨?_, ?_, ?_⟩
  · intro s1 hok
    cases hscript : handlerScript c (ChMessageInt hdr.len) reqData with
    | none =>
      unfold CcsHandleRequest at hok
      simp only [hreg] at hok
      rw [callHandlerRec_script, hscript] at hok
      cases hok
    | some script =>
      rw [handleRequest_registered cfg hdr reqData s c script hreg hscript] at hok
      cases hrun : runHandler cfg script
          { s with
            ccsReq := some hdr
            ccsTab := fun k => if k = hdr.handler then some { c with nCalls := c.nCalls + 1 }
                               else s.ccsTab k
            invoked := s.invoked ++ [hdr.handler] } with
      | error e =>
        rw [hrun] at hok
        cases hok
      | ok s2 =>
        rw [hrun] at hok
        obtain ⟨rs, ts, hr, ht, hb⟩ := runHandler_balance cfg script _ s2 hrun
        cases hreq : s2.ccsReq with
        | none =>
          simp only [hreq] at hok
          cases hok
          refine ⟨rs, ts, hr, ht, ?_, hreq⟩
          simpa [hreq] using hb
        | some req =>
          simp only [hreq] at hok
          rw [CcsSendReply_pending 0 [] s2 req hreq] at hok
          cases hok
          refine ⟨rs ++ [{ rep := { req with len := ChMessageInt_new 1 }
                           repLen := 0, repData := [] }], ts, ?_, ht, ?_, rfl⟩
          · show s2.replies ++ [_] = s.replies ++ (rs ++ [_])
            rw [hr, List.append_assoc]
          · have hb2 : rs.length + ts.length + 1 = 1 := by simpa [hreq] using hb
            simp only [List.length_append, List.length_singleton]
            omega
  · intro hscript
    rw [handleRequest_registered cfg hdr reqData s c [] hreg hscript]
    exact ⟨_, rfl, rfl, rfl⟩
  · intro n p hscript
    rw [handleRequest_registered cfg hdr reqData s c _ hreg hscript]
    exact ⟨_, rfl, rfl, rfl⟩

/-- C5 at a concrete input: the handler "echo" replies once with the payload
"hi" of the request. -/
theorem handleRequest_one_reply_or_token_witness :
    demoState.ccsTab (demoHdr 3 2).handler = some echoRec ∧
    ∃ s1, CcsHandleRequest demoCfg (demoHdr 3 2) [104, 105] demoState = Except.ok s1 ∧
      s1.replies = demoState.replies ++
        [{ rep := { demoHdr 3 2 with len := ChMessageInt_new 1 }
           repLen := 2, repData := [104, 105] }] ∧
      s1.tokens = demoState.tokens :=
  ⟨rfl,
   (handleRequest_one_reply_or_token demoCfg (demoHdr 3 2) [104, 105] demoState echoRec
      rfl).2.2 2 [104, 105] (by decide)⟩

/-- C6: for every handler table and every request whose handler name is not
registered, `CcsHandleRequest` returns after exactly one `CcsReply` call of
length 0 with no data on the envelope of the request; no callback is invoked,
the table (so every `nCalls`) is unchanged, no token is handed out, and the
slot is empty on return. -/
theorem handleRequest_unknown_handler (cfg : Config) (hdr : CcsImplHeader)
    (reqData : List Byte) (s : CcsState) (hnone : s.ccsTab hdr.handler = none) :
    ∃ s1, CcsHandleRequest cfg hdr reqData s = Except.ok s1 ∧
      s1.replies = s.replies ++
        [{ rep := { hdr with len := ChMessageInt_new 1 }, repLen := 0, repData := [] }] ∧
      s1.invoked = s.invoked ∧
      s1.ccsTab = s.ccsTab ∧
      (∀ name r, s.ccsTab name = some r →
        ∃ r1, s1.ccsTab name = some r1 ∧ r1.nCalls = r.nCalls) ∧
      s1.tokens = s.tokens ∧
      s1.ccsReq = none :=
  ⟨_, handleRequest_unregistered cfg hdr reqData s hnone, rfl, rfl, rfl,
    fun _ r h => ⟨r, h, rfl⟩, rfl, rfl⟩

/-- C6 at a concrete input: handler name "nope" on a table holding "echo" and
"later". -/
theorem handleRequest_unknown_handler_witness :
    demoState.ccsTab ({ demoHdr 3 2 with handler := "nope" } : CcsImplHeader).handler = none ∧
    ∃ s1, CcsHandleRequest demoCfg { demoHdr 3 2 with handler := "nope" } [104, 105] demoState
        = Except.ok s1 ∧
      s1.replies = demoState.replies ++
        [{ rep := { ({ demoHdr 3 2 with handler := "nope" } : CcsImplHeader) with
                    len := ChMessageInt_new 1 }
           repLen := 0, repData := [] }] ∧
      s1.invoked = demoState.invoked ∧
      s1.ccsTab = demoState.ccsTab ∧
      (∀ name r, demoState.ccsTab name = some r →
        ∃ r1, s1.ccsTab name = some r1 ∧ r1.nCalls = r.nCalls) ∧
      s1.tokens = demoState.tokens ∧
      s1.ccsReq = none :=
  ⟨rfl,
   handleRequest_unknown_handler demoCfg { demoHdr 3 2 with handler := "nope" } [104, 105]
     demoState rfl⟩

/-- C7: `CcsSendReply` aborts if and only if the slot `ccsReq` is empty; when
the slot holds an envelope it returns after exactly one `CcsReply` call with
that envelope (its `len` field overwritten with the mark 1), the given length
and the given data, and the slot is empty afterwards. -/
theorem CcsSendReply_contract (replyLen : Int) (replyData : List Byte) (s : CcsState) :
    ((∃ msg, CcsSendReply replyLen replyData s = Except.error (Fault.abort msg)) ↔
      s.ccsReq = none) ∧
    ((∃ e, CcsSendReply replyLen replyData s = Except.error e) ↔ s.ccsReq = none) ∧
    (∀ req, s.ccsReq = some req →
      ∃ s1, CcsSendReply replyLen replyData s = Except.ok s1 ∧
        s1.replies = s.replies ++
          [{ rep := { req with len := ChMessageInt_new 1 }
             repLen := replyLen, repData := replyData }] ∧
        s1.ccsReq = none) := by
  cases hreq : s.ccsReq with
  | none =>
    rw [CcsSendReply_empty_slot replyLen replyData s hreq]
    exact ⟨⟨fun _ => rfl, fun _ => ⟨_, rfl⟩⟩, ⟨fun _ => rfl, fun _ => ⟨_, rfl⟩⟩,
      fun req h => by cases h⟩
  | some req =>
    rw [CcsSendReply_pending replyLen replyData s req hreq]
    refine ⟨⟨fun h => ?_, fun h => by cases h⟩, ⟨fun h => ?_, fun h => by cases h⟩, ?_⟩
    · obtain ⟨_, h⟩ := h
      cases h
    · obtain ⟨_, h⟩ := h
      cases h
    · intro r hr
      cases hr
      exact ⟨_, rfl, rfl, rfl⟩

/-- C7 at a concrete input: a pending request from the demo client, reply "hi". -/
theorem CcsSendReply_contract_witness :
    ∃ s1, CcsSendReply 2 [104, 105] { demoState with ccsReq := some (demoHdr 3 2) }
        = Except.ok s1 ∧
      s1.replies = demoState.replies ++
        [{ rep := { demoHdr 3 2 with len := ChMessageInt_new 1 }
           repLen := 2, repData := [104, 105] }] ∧
      s1.ccsReq = none :=
  (CcsSendReply_contract 2 [104, 105]
    { demoState with ccsReq := some (demoHdr 3 2) }).2.2 (demoHdr 3 2) rfl

/-- C8, as stated, fails: with no request pending `CcsNoReply` returns normally,
emitting nothing, while `CcsSendReply` aborts in the same state. -/
theorem CcsNoReply_without_pending_returns :
    demoState.ccsReq = none ∧
    (∃ s1, CcsNoReply demoState = Except.ok s1 ∧ s1.replies = [] ∧ s1.ccsReq = none) ∧
    (∃ msg, CcsSendReply 0 [] demoState = Except.error (Fault.abort msg)) :=
  ⟨rfl, ⟨_, rfl, rfl, rfl⟩, ⟨_, rfl⟩⟩

/-- C8 (amended): `CcsNoReply` called while no request is pending returns
normally and leaves the whole state unchanged (no reply is emitted). -/
theorem CcsNoReply_without_pending (s : CcsState) (h : s.ccsReq = none) :
    CcsNoReply s = Except.ok s := by
  simp [CcsNoReply, h]

/-- C8 (amended) at a concrete input: the demo context with nothing pending. -/
theorem CcsNoReply_without_pending_witness :
    demoState.ccsReq = none ∧ CcsNoReply demoState = Except.ok demoState :=
  ⟨rfl, CcsNoReply_without_pending demoState rfl⟩

/-! ## Delayed replies -/

theorem CcsDelayReply_len_broadcast (cfg : Config) (pe : Int) (h : pe = -1) :
    CcsDelayReply_len cfg pe = (cfg.sizeofCcsImplHeader : Int) := by
  have hn : ¬ pe % 4294967296 < 4294967295 := by omega
  show (if pe % 4294967296 < 4294967295 then _ else _) = _
  rw [if_neg hn]

theorem CcsDelayReply_len_of_nonneg (cfg : Config) (pe : Int) (h0 : 0 ≤ pe)
    (hfit : (cfg.sizeofCcsImplHeader : Int) + 4 * pe < 2147483648) :
    CcsDelayReply_len cfg pe = (cfg.sizeofCcsImplHeader : Int) + 4 * pe := by
  have hu : pe % 4294967296 = pe := Int.emod_eq_of_lt h0 (by omega)
  have hc : pe % 4294967296 < 4294967295 := by omega
  show (if pe % 4294967296 < 4294967295 then _ else _) = _
  rw [if_pos hc, hu, wrap32_of_range _ (by omega) (by omega)]
  omega

theorem CcsDelayReply_len_of_lt (cfg : Config) (pe : Int) (h : pe < -1)
    (hlo : -2147483648 ≤ pe) :
    CcsDelayReply_len cfg pe = wrap32 ((cfg.sizeofCcsImplHeader : Int) + pe * 4) := by
  have hc : pe % 4294967296 < 4294967295 := by omega
  show (if pe % 4294967296 < 4294967295 then _ else _) = _
  rw [if_pos hc, wrap32, wrap32]
  omega

theorem CcsDelayReply_pending (cfg : Config) (s : CcsState) (req : CcsImplHeader)
    (hreq : s.ccsReq = some req)
    (hlen : 0 ≤ CcsDelayReply_len cfg (ChMessageInt req.pe))
    (hroom : CcsDelayReply_len cfg (ChMessageInt req.pe)
      ≤ (cfg.sizeofCcsImplHeader : Int) + s.ccsReqTail) :
    CcsDelayReply cfg s =
      Except.ok
        ({ len := CcsDelayReply_len cfg (ChMessageInt req.pe), env := req },
         { s with
           ccsReq := none
           tokens := s.tokens ++
             [{ len := CcsDelayReply_len cfg (ChMessageInt req.pe), env := req }] }) := by
  have hn : ¬ CcsDelayReply_len cfg (ChMessageInt req.pe) < 0 := by omega
  simp only [CcsDelayReply, hreq]
  rw [if_neg hn, if_pos hroom]

theorem CcsDelayReply_short_tail (cfg : Config) (s : CcsState) (req : CcsImplHeader)
    (hreq : s.ccsReq = some req)
    (hroom : ¬ CcsDelayReply_len cfg (ChMessageInt req.pe)
      ≤ (cfg.sizeofCcsImplHeader : Int) + s.ccsReqTail) :
    CcsDelayReply cfg s = Except.error Fault.memory := by
  simp only [CcsDelayReply, hreq]
  by_cases hneg : CcsDelayReply_len cfg (ChMessageInt req.pe) < 0
  · rw [if_pos hneg]
  · rw [if_neg hneg, if_neg hroom]

/-- C9 fails on the code for selectors from 1 on: `CcsDelayReply` compares the
unsigned result of `ChMessageInt` with `-1`, so for every pending request
with selector `s ≥ 0` (header size plus `4 * s` below `2^31`) it allocates and
copies `sizeof(CcsImplHeader) + 4 * s` bytes from the address of the envelope,
and `sizeof(CcsImplHeader)` bytes for `s = -1`.  When fewer than `4 * s` bytes
are readable behind the envelope the copy is an invalid access and no token
is returned.  When `4 * s` bytes are readable (always so for `s = -1` and
`s = 0`), `CcsDelayReply` returns a token whose block holds the whole pending
envelope, unchanged, and leaves the slot empty; after any sequence of further
complete `CcsHandleRequest` dispatches on the same context,
`CcsSendDelayedReply` on that token with `(n, p)` returns after exactly one
`CcsReply` call carrying `p` and `n`, whose origin address, handler name and
selector are those of the request the token was taken from. -/
theorem CcsDelayReply_unicast_overread (cfg : Config) (s : CcsState) (req : CcsImplHeader)
    (hreq : s.ccsReq = some req) (hsel : -1 ≤ ChMessageInt req.pe)
    (hfit : (cfg.sizeofCcsImplHeader : Int) + 4 * ChMessageInt req.pe < 2147483648) :
    (ChMessageInt req.pe = -1 →
      CcsDelayReply_len cfg (ChMessageInt req.pe) = (cfg.sizeofCcsImplHeader : Int)) ∧
    (0 ≤ ChMessageInt req.pe →
      CcsDelayReply_len cfg (ChMessageInt req.pe)
        = (cfg.sizeofCcsImplHeader : Int) + 4 * ChMessageInt req.pe) ∧
    ((s.ccsReqTail : Int) < 4 * ChMessageInt req.pe →
      CcsDelayReply cfg s = Except.error Fault.memory) ∧
    (4 * ChMessageInt req.pe ≤ (s.ccsReqTail : Int) →
      ∃ d s1, CcsDelayReply cfg s = Except.ok (d, s1) ∧
        d.env = req ∧ (cfg.sizeofCcsImplHeader : Int) ≤ d.len ∧
        s1.ccsReq = none ∧ s1.replies = s.replies ∧
        ∀ later sN, runDispatches cfg later s1 = Except.ok sN →
          ∀ n p, ∃ sF r, CcsSendDelayedReply cfg d n p sN = Except.ok sF ∧
            sF.replies = sN.replies ++ [r] ∧
            r.repData = p ∧ r.repLen = n ∧
            r.rep.attr = req.attr ∧ r.rep.handler = req.handler ∧ r.rep.pe = req.pe) := by
  have hb := CcsDelayReply_len_broadcast cfg (ChMessageInt req.pe)
  have hu : 0 ≤ ChMessageInt req.pe →
      CcsDelayReply_len cfg (ChMessageInt req.pe)
        = (cfg.sizeofCcsImplHeader : Int) + 4 * ChMessageInt req.pe :=
    fun h0 => CcsDelayReply_len_of_nonneg cfg (ChMessageInt req.pe) h0 hfit
  have hsz : (0 : Int) ≤ (cfg.sizeofCcsImplHeader : Int) := Int.ofNat_nonneg _
  have htl : (0 : Int) ≤ (s.ccsReqTail : Int) := Int.ofNat_nonneg _
  refine ⟨hb, hu, ?_, ?_⟩
  · intro hshort
    apply CcsDelayReply_short_tail cfg s req hreq
    rw [hu (by omega)]
    omega
  · intro hroom
    have hge : (cfg.sizeofCcsImplHeader : Int) ≤ CcsDelayReply_len cfg (ChMessageInt req.pe) := by
      by_cases h1 : ChMessageInt req.pe = -1
      · rw [hb h1]
      · rw [hu (by omega)]
        omega
    have hle : CcsDelayReply_len cfg (ChMessageInt req.pe)
        ≤ (cfg.sizeofCcsImplHeader : Int) + s.ccsReqTail := by
      by_cases h1 : ChMessageInt req.pe = -1
      · rw [hb h1]
        omega
      · rw [hu (by omega)]
        omega
    refine ⟨_, _, CcsDelayReply_pending cfg s req hreq (by omega) hle, rfl, ?_, rfl, rfl, ?_⟩
    · dsimp only
      exact hge
    · intro later sN _ n p
      have hn : ¬ CcsDelayReply_len cfg (ChMessageInt req.pe)
          < (cfg.sizeofCcsImplHeader : Int) := by omega
      refine ⟨CcsReply { req with len := ChMessageInt_new 1 } n p sN,
        { rep := { req with len := ChMessageInt_new 1 }, repLen := n, repData := p }, ?_,
        rfl, rfl, rfl, rfl, rfl, rfl⟩
      unfold CcsSendDelayedReply
      dsimp only
      rw [if_neg hn]

/-- C9 at the failing input: envelope of 56 bytes, a unicast request to PE 3
with 2 bytes behind its envelope is pending; `CcsDelayReply` copies 68 bytes
and runs past the readable bytes. -/
theorem CcsDelayReply_unicast_overread_witness :
    CcsDelayReply_len demoCfg (ChMessageInt (demoHdr 3 2).pe) = 68 ∧
    CcsDelayReply demoCfg { demoState with ccsReq := some (demoHdr 3 2), ccsReqTail := 2 }
      = Except.error Fault.memory :=
  ⟨((CcsDelayReply_unicast_overread demoCfg
      { demoState with ccsReq := some (demoHdr 3 2), ccsReqTail := 2 } (demoHdr 3 2) rfl
      (by decide) (by decide)).2.1 (by decide)).trans (by decide),
   (CcsDelayReply_unicast_overread demoCfg
      { demoState with ccsReq := some (demoHdr 3 2), ccsReqTail := 2 } (demoHdr 3 2) rfl
      (by decide) (by decide)).2.2.1 (by decide)⟩

/-- C10 fails on the code: for a pending multicast request with selector
`s < -1` (here `-2^29 ≤ s`, header size below `2^31`) the byte count that
`CcsDelayReply` allocates and copies is `sizeof(CcsImplHeader) - 4 * (-s)`,
not `sizeof(CcsImplHeader) + 4 * (-s)`: every token it returns is shorter than
the envelope itself. -/
theorem CcsDelayReply_multicast_block_short (cfg : Config) (s : CcsState)
    (req : CcsImplHeader) (hreq : s.ccsReq = some req)
    (hpe : ChMessageInt req.pe < -1) (hlow : -536870912 ≤ ChMessageInt req.pe)
    (hsz : (cfg.sizeofCcsImplHeader : Int) < 2147483648) :
    CcsDelayReply_len cfg (ChMessageInt req.pe)
        = (cfg.sizeofCcsImplHeader : Int) - 4 * (-(ChMessageInt req.pe)) ∧
    CcsDelayReply_len cfg (ChMessageInt req.pe)
        ≠ (cfg.sizeofCcsImplHeader : Int) + 4 * (-(ChMessageInt req.pe)) ∧
    (∀ d s1, CcsDelayReply cfg s = Except.ok (d, s1) →
      d.len = (cfg.sizeofCcsImplHeader : Int) - 4 * (-(ChMessageInt req.pe)) ∧
      d.len < (cfg.sizeofCcsImplHeader : Int)) := by
  have hlen : CcsDelayReply_len cfg (ChMessageInt req.pe)
      = (cfg.sizeofCcsImplHeader : Int) - 4 * (-(ChMessageInt req.pe)) := by
    rw [CcsDelayReply_len_of_lt cfg _ hpe (by omega), wrap32_of_range _ (by omega) (by omega)]
    omega
  refine ⟨hlen, by omega, ?_⟩
  intro d s1 hok
  by_cases hneg : CcsDelayReply_len cfg (ChMessageInt req.pe) < 0
  · simp only [CcsDelayReply, hreq] at hok
    rw [if_pos hneg] at hok
    cases hok
  · have htl : (0 : Int) ≤ (s.ccsReqTail : Int) := Int.ofNat_nonneg _
    rw [CcsDelayReply_pending cfg s req hreq (by omega) (by omega)] at hok
    have hd := (Prod.mk.inj (Except.ok.inj hok)).1
    rw [← hd]
    dsimp only
    omega

/-- C10 at the failing input: envelope of 56 bytes, pending selector -2; the
token block has 48 bytes where the claim needs 64. -/
theorem CcsDelayReply_multicast_block_short_witness :
    CcsDelayReply_len demoCfg (ChMessageInt (demoHdr (-2) 2).pe) = 48 ∧
    (demoCfg.sizeofCcsImplHeader : Int) + 4 * (-(ChMessageInt (demoHdr (-2) 2).pe)) = 64 ∧
    ∃ d s1, CcsDelayReply demoCfg { demoState with ccsReq := some (demoHdr (-2) 2) }
        = Except.ok (d, s1) ∧ d.len = 48 :=
  ⟨(CcsDelayReply_multicast_block_short demoCfg
      { demoState with ccsReq := some (demoHdr (-2) 2) } (demoHdr (-2) 2) rfl
      (by decide) (by decide) (by decide)).1.trans (by decide),
   by decide,
   _, _, rfl, by decide⟩

/-! ## Handler registration -/

theorem initHandlerRec_short (name : String) (h : strlen name < CCS_MAXHANDLER) :
    initHandlerRec name =
      Except.ok { name := name, fn := none, fnOld := none, userPtr := none, mergeFn := none
                  nCalls := 0, redID := none } := by
  have hn : ¬ strlen name ≥ CCS_MAXHANDLER := by omega
  rw [initHandlerRec, if_neg hn]

theorem initHandlerRec_long (name : String) (h : CCS_MAXHANDLER ≤ strlen name) :
    initHandlerRec name =
      Except.error (Fault.abort "CCS handler names cannot exceed 32 characters") := by
  rw [initHandlerRec, if_pos h]

/-- C11, measured on the code: registration through `initHandlerRec` aborts if
and only if the name has at least 32 bytes, so a name of exactly 32 bytes is
refused although the claim (and the abort message) admit it; every name of at
most 31 bytes is stored under its name with the given callback variant, no
merge function and `nCalls = 0`. -/
theorem registration_name_bound (name : String) (fnOld : CmiHandler) (fn : CcsHandlerFn)
    (ptr : Option Nat) (s : CcsState) :
    ((∃ msg, CcsRegisterHandler name fnOld s = Except.error (Fault.abort msg)) ↔
      32 ≤ strlen name) ∧
    ((∃ msg, CcsRegisterHandlerFn name fn ptr s = Except.error (Fault.abort msg)) ↔
      32 ≤ strlen name) ∧
    (strlen name ≤ 31 →
      ∃ s1, CcsRegisterHandler name fnOld s = Except.ok s1 ∧
        CcsGetHandler name s1 =
          some { name := name, fn := none, fnOld := some fnOld, userPtr := none
                 mergeFn := none, nCalls := 0, redID := none }) ∧
    (strlen name ≤ 31 →
      ∃ s1, CcsRegisterHandlerFn name fn ptr s = Except.ok s1 ∧
        CcsGetHandler name s1 =
          some { name := name, fn := some fn, fnOld := none, userPtr := ptr
                 mergeFn := none, nCalls := 0, redID := none }) := by
  by_cases h : CCS_MAXHANDLER ≤ strlen name
  · have h32 : 32 ≤ strlen name := h
    have e1 : CcsRegisterHandler name fnOld s =
        Except.error (Fault.abort "CCS handler names cannot exceed 32 characters") := by
      rw [CcsRegisterHandler, initHandlerRec_long name h]
    have e2 : CcsRegisterHandlerFn name fn ptr s =
        Except.error (Fault.abort "CCS handler names cannot exceed 32 characters") := by
      rw [CcsRegisterHandlerFn, initHandlerRec_long name h]
    exact ⟨⟨fun _ => h32, fun _ => ⟨_, e1⟩⟩, ⟨fun _ => h32, fun _ => ⟨_, e2⟩⟩,
      fun h31 => by omega, fun h31 => by omega⟩
  · have hlt : strlen name < CCS_MAXHANDLER := by omega
    have h31 : ¬ 32 ≤ strlen name := h
    have e1 : CcsRegisterHandler name fnOld s =
        Except.ok
          { s with
            ccsTab := fun k =>
              if k = name then
                some { name := name, fn := none, fnOld := some fnOld, userPtr := none
                       mergeFn := none, nCalls := 0, redID := none }
              else s.ccsTab k } := by
      rw [CcsRegisterHandler, initHandlerRec_short name hlt]
    have e2 : CcsRegisterHandlerFn name fn ptr s =
        Except.ok
          { s with
            ccsTab := fun k =>
              if k = name then
                some { name := name, fn := some fn, fnOld := none, userPtr := ptr
                       mergeFn := none, nCalls := 0, redID := none }
              else s.ccsTab k } := by
      rw [CcsRegisterHandlerFn, initHandlerRec_short name hlt]
    refine ⟨⟨fun hx => ?_, fun hx => absurd hx h31⟩, ⟨fun hx => ?_, fun hx => absurd hx h31⟩,
      fun _ => ⟨_, e1, ?_⟩, fun _ => ⟨_, e2, ?_⟩⟩
    · obtain ⟨msg, hmsg⟩ := hx
      rw [e1] at hmsg
      cases hmsg
    · obtain ⟨msg, hmsg⟩ := hx
      rw [e2] at hmsg
      cases hmsg
    · simp [CcsGetHandler]
    · simp [CcsGetHandler]

/-- C11 at the failing input: a name of exactly 32 bytes is refused by both
registration functions, a name of 31 bytes is stored. -/
theorem registration_name_bound_witness :
    strlen "aaaaaaaaaaaaaaaaaaaaaaaaaaaaaaaa" = 32 ∧
    (∃ msg, CcsRegisterHandler "aaaaaaaaaaaaaaaaaaaaaaaaaaaaaaaa" (fun _ => []) demoState
      = Except.error (Fault.abort msg)) ∧
    (∃ msg, CcsRegisterHandlerFn "aaaaaaaaaaaaaaaaaaaaaaaaaaaaaaaa" (fun _ _ _ => []) none
      demoState = Except.error (Fault.abort msg)) ∧
    (∃ s1, CcsRegisterHandler "aaaaaaaaaaaaaaaaaaaaaaaaaaaaaaa" (fun _ => []) demoState
      = Except.ok s1 ∧
      CcsGetHandler "aaaaaaaaaaaaaaaaaaaaaaaaaaaaaaa" s1 =
        some { name := "aaaaaaaaaaaaaaaaaaaaaaaaaaaaaaa", fn := none, fnOld := some (fun _ => [])
               userPtr := none, mergeFn := none, nCalls := 0, redID := none }) :=
  ⟨by decide,
   (registration_name_bound "aaaaaaaaaaaaaaaaaaaaaaaaaaaaaaaa" (fun _ => []) (fun _ _ _ => [])
      none demoState).1.mpr (by decide),
   (registration_name_bound "aaaaaaaaaaaaaaaaaaaaaaaaaaaaaaaa" (fun _ => []) (fun _ _ _ => [])
      none demoState).2.1.mpr (by decide),
   (registration_name_bound "aaaaaaaaaaaaaaaaaaaaaaaaaaaaaaa" (fun _ => []) (fun _ _ _ => [])
      none demoState).2.2.1 (by decide)⟩

/-! ## Concatenation merge -/

theorem ChMessageInt_new_roundtrip (x : Int) (h1 : -2147483648 ≤ x) (h2 : x < 2147483648) :
    ChMessageInt (ChMessageInt_new x) = x := by
  rw [ChMessageInt, ChMessageInt_new, wrap32]
  simp only []
  have hu : ((x % 4294967296).toNat : Int) = x % 4294967296 :=
    Int.toNat_of_nonneg (Int.emod_nonneg _ (by decide))
  generalize (x % 4294967296).toNat = u at hu ⊢
  omega

theorem concat_total (remote : List ConverseMsg) :
    ∀ (size : Int), -2147483648 ≤ size →
      (∀ r ∈ remote, 0 ≤ ChMessageInt r.hdr.len) →
      size + (remote.map (fun r => ChMessageInt r.hdr.len)).sum < 2147483648 →
      remote.foldl (fun t r => wrap32 (t + ChMessageInt r.hdr.len)) size
        = size + (remote.map (fun r => ChMessageInt r.hdr.len)).sum := by
  induction remote with
  | nil =>
    intro size _ _ _
    simp
  | cons r rs ih =>
    intro size hlo hpos hfit
    have hr : 0 ≤ ChMessageInt r.hdr.len := hpos r (List.mem_cons_self _ _)
    have hrs : ∀ q ∈ rs, 0 ≤ ChMessageInt q.hdr.len :=
      fun q hq => hpos q (List.mem_cons_of_mem _ hq)
    have hsum : 0 ≤ (rs.map (fun r => ChMessageInt r.hdr.len)).sum := by
      apply List.sum_nonneg
      intro x hx
      obtain ⟨q, hq, rfl⟩ := List.mem_map.mp hx
      exact hrs q hq
    rw [List.map_cons, List.sum_cons] at hfit
    rw [List.foldl_cons, wrap32_of_range _ (by omega) (by omega),
      ih (size + ChMessageInt r.hdr.len) (by omega) hrs (by omega),
      List.map_cons, List.sum_cons]
    omega

theorem memcpy_all (src : List Byte) (n : Int) (h : (src.length : Int) = n) :
    memcpy src n = Except.ok src := by
  have hc : 0 ≤ n ∧ n ≤ (src.length : Int) := by omega
  have ht : n.toNat = src.length := by omega
  rw [memcpy, if_pos hc, ht, List.take_length]
  rfl

theorem concatLoop_all (remote : List ConverseMsg) :
    ∀ (room : Int), (∀ r ∈ remote, (r.data.length : Int) = ChMessageInt r.hdr.len) →
      (remote.map (fun r => ChMessageInt r.hdr.len)).sum ≤ room →
      concatLoop remote room = Except.ok (remote.map (fun r => r.data)).flatten := by
  induction remote with
  | nil =>
    intro room _ _
    rfl
  | cons r rs ih =>
    intro room hlen hroom
    have hr : (r.data.length : Int) = ChMessageInt r.hdr.len :=
      hlen r (List.mem_cons_self _ _)
    have hrs : ∀ q ∈ rs, (q.data.length : Int) = ChMessageInt q.hdr.len :=
      fun q hq => hlen q (List.mem_cons_of_mem _ hq)
    have hsum : 0 ≤ (rs.map (fun r => ChMessageInt r.hdr.len)).sum := by
      apply List.sum_nonneg
      intro x hx
      obtain ⟨q, hq, rfl⟩ := List.mem_map.mp hx
      have := hrs q hq
      omega
    rw [List.map_cons, List.sum_cons] at hroom
    have hn : ChMessageInt r.hdr.len ≤ room := by omega
    have hcopy : concatCopy r room = Except.ok (r.data, room - ChMessageInt r.hdr.len) := by
      rw [concatCopy, if_pos hn, memcpy_all r.data _ hr]
    rw [concatLoop, hcopy]
    dsimp only
    rw [ih (room - ChMessageInt r.hdr.len) hrs (by omega)]
    simp

theorem merged_reply_fields (m : ConverseMsg) (v : ChMessageInt_t) (d : List Byte) :
    ({ handlerIdx := m.handlerIdx, hdr := { m.hdr with len := v }, data := d }
        : ConverseMsg).hdr.len = v ∧
    ({ handlerIdx := m.handlerIdx, hdr := { m.hdr with len := v }, data := d }
        : ConverseMsg).data = d ∧
    ({ handlerIdx := m.handlerIdx, hdr := { m.hdr with len := v }, data := d }
        : ConverseMsg).hdr.attr = m.hdr.attr ∧
    ({ handlerIdx := m.handlerIdx, hdr := { m.hdr with len := v }, data := d }
        : ConverseMsg).hdr.handler = m.hdr.handler ∧
    ({ handlerIdx := m.handlerIdx, hdr := { m.hdr with len := v }, data := d }
        : ConverseMsg).hdr.pe = m.hdr.pe ∧
    ({ handlerIdx := m.handlerIdx, hdr := { m.hdr with len := v }, data := d }
        : ConverseMsg).handlerIdx = m.handlerIdx :=
  ⟨rfl, rfl, rfl, rfl, rfl, rfl⟩

/-- C12: for a local message and `k-1` remote messages that hold exactly their
declared payloads (lengths `L0 .. Lk-1 ≥ 0`), with the size argument equal to
reserved header + envelope + `L0` and a merged length that fits an `int`,
`CcsMerge_concat` returns a reply whose declared length is the sum of all `Li`,
whose payload is the local payload followed by each remote payload in call
order, whose reserved header and envelope fields other than `len` are those of
the local message, and stores reserved header + envelope + sum of `Li` through
`size`. -/
theorem CcsMerge_concat_spec (cfg : Config) (size : Int) (local_ : ConverseMsg)
    (remote : List ConverseMsg)
    (hsize : size = (cfg.CmiReservedHeaderSize : Int) + cfg.sizeofCcsImplHeader
      + ChMessageInt local_.hdr.len)
    (hlocal : (local_.data.length : Int) = ChMessageInt local_.hdr.len)
    (hremote : ∀ r ∈ remote, (r.data.length : Int) = ChMessageInt r.hdr.len)
    (hfit : size + (remote.map (fun r => ChMessageInt r.hdr.len)).sum < 2147483648) :
    ∃ reply, CcsMerge_concat cfg size local_ remote =
        Except.ok (reply, (cfg.CmiReservedHeaderSize : Int) + cfg.sizeofCcsImplHeader
          + (ChMessageInt local_.hdr.len
            + (remote.map (fun r => ChMessageInt r.hdr.len)).sum)) ∧
      ChMessageInt reply.hdr.len
        = ChMessageInt local_.hdr.len + (remote.map (fun r => ChMessageInt r.hdr.len)).sum ∧
      reply.data = local_.data ++ (remote.map (fun r => r.data)).flatten ∧
      reply.hdr.attr = local_.hdr.attr ∧
      reply.hdr.handler = local_.hdr.handler ∧
      reply.hdr.pe = local_.hdr.pe ∧
      reply.handlerIdx = local_.handlerIdx := by
  have hL0 : 0 ≤ ChMessageInt local_.hdr.len := by omega
  have hpos : ∀ r ∈ remote, 0 ≤ ChMessageInt r.hdr.len := by
    intro r hr
    have := hremote r hr
    omega
  have hsum : 0 ≤ (remote.map (fun r => ChMessageInt r.hdr.len)).sum := by
    apply List.sum_nonneg
    intro x hx
    obtain ⟨q, hq, rfl⟩ := List.mem_map.mp hx
    exact hpos q hq
  have htotal := concat_total remote size (by omega) hpos hfit
  have hk : size - (cfg.CmiReservedHeaderSize : Int) - cfg.sizeofCcsImplHeader
      = ChMessageInt local_.hdr.len := by omega
  have hk0 : ¬ size - (cfg.CmiReservedHeaderSize : Int) - cfg.sizeofCcsImplHeader < 0 := by
    omega
  have hts : ¬ size + (remote.map (fun r => ChMessageInt r.hdr.len)).sum < size := by omega
  have hroom : size + (remote.map (fun r => ChMessageInt r.hdr.len)).sum - size
      = (remote.map (fun r => ChMessageInt r.hdr.len)).sum := by omega
  have hnew : size + (remote.map (fun r => ChMessageInt r.hdr.len)).sum
      - (cfg.CmiReservedHeaderSize : Int) - cfg.sizeofCcsImplHeader
      = ChMessageInt local_.hdr.len + (remote.map (fun r => ChMessageInt r.hdr.len)).sum := by
    omega
  have hrun : CcsMerge_concat cfg size local_ remote =
      Except.ok
        ({ handlerIdx := local_.handlerIdx
           hdr := { local_.hdr with
             len := ChMessageInt_new (ChMessageInt local_.hdr.len
               + (remote.map (fun r => ChMessageInt r.hdr.len)).sum) }
           data := local_.data ++ (remote.map (fun r => r.data)).flatten },
         size + (remote.map (fun r => ChMessageInt r.hdr.len)).sum) := by
    rw [CcsMerge_concat, htotal]
    dsimp only
    rw [if_neg hk0, if_neg hts, hk, memcpy_all local_.data _ hlocal, hroom,
      concatLoop_all remote _ hremote (le_refl _), hnew]
  have hsz : size + (remote.map (fun r => ChMessageInt r.hdr.len)).sum
      = (cfg.CmiReservedHeaderSize : Int) + cfg.sizeofCcsImplHeader
        + (ChMessageInt local_.hdr.len
          + (remote.map (fun r => ChMessageInt r.hdr.len)).sum) := by omega
  rw [hsz] at hrun
  have hlen : ChMessageInt (ChMessageInt_new (ChMessageInt local_.hdr.len
      + (remote.map (fun r => ChMessageInt r.hdr.len)).sum))
      = ChMessageInt local_.hdr.len + (remote.map (fun r => ChMessageInt r.hdr.len)).sum :=
    ChMessageInt_new_roundtrip _ (by omega) (by omega)
  generalize ChMessageInt_new (ChMessageInt local_.hdr.len
      + (remote.map (fun r => ChMessageInt r.hdr.len)).sum) = v at hrun hlen
  obtain ⟨h1, h2, h3, h4, h5, h6⟩ :=
    merged_reply_fields local_ v (local_.data ++ (remote.map (fun r => r.data)).flatten)
  rw [← h1] at hlen
  exact ⟨_, hrun, hlen, h2, h3, h4, h5, h6⟩

/-- C12 at a concrete input: local payload (1, 2) and remote payloads
(3, 4, 5), (), (6). -/
theorem CcsMerge_concat_spec_witness :
    ∃ reply, CcsMerge_concat demoCfg 74
        { handlerIdx := some 8, hdr := demoHdr (-1) 2, data := [1, 2] }
        [{ handlerIdx := some 8, hdr := demoHdr (-1) 3, data := [3, 4, 5] },
         { handlerIdx := some 8, hdr := demoHdr (-1) 0, data := [] },
         { handlerIdx := some 8, hdr := demoHdr (-1) 1, data := [6] }] =
        Except.ok (reply, 78) ∧
      ChMessageInt reply.hdr.len = 6 ∧
      reply.data = [1, 2, 3, 4, 5, 6] ∧
      reply.hdr.attr = (demoHdr (-1) 2).attr ∧
      reply.hdr.handler = (demoHdr (-1) 2).handler ∧
      reply.hdr.pe = (demoHdr (-1) 2).pe ∧
      reply.handlerIdx = some 8 :=
  CcsMerge_concat_spec demoCfg 74
    { handlerIdx := some 8, hdr := demoHdr (-1) 2, data := [1, 2] }
    [{ handlerIdx := some 8, hdr := demoHdr (-1) 3, data := [3, 4, 5] },
     { handlerIdx := some 8, hdr := demoHdr (-1) 0, data := [] },
     { handlerIdx := some 8, hdr := demoHdr (-1) 1, data := [6] }]
    (by decide) (by decide) (by decide) (by decide)

/-! ## Elementwise merges -/

theorem CmiAssert_holds (p : Prop) [Decidable p] (expr : String) (h : p) :
    CmiAssert (decide p) expr = Except.ok () := by
  rw [CmiAssert, decide_eq_true h, if_pos rfl]

theorem CmiAssert_fails (p : Prop) [Decidable p] (expr : String) (h : ¬ p) :
    CmiAssert (decide p) expr = Except.error (Fault.abort expr) := by
  rw [CmiAssert, decide_eq_false h, if_neg (by decide)]

theorem reductionLoop_exact {α : Type} (loop : α → α → α) :
    ∀ (n : Nat) (ret value : List α), ret.length = n → value.length = n →
      reductionLoop loop n ret value = Except.ok (List.zipWith loop ret value) := by
  intro n
  induction n with
  | zero =>
    intro ret value hr hv
    have hr0 : ret = [] := List.length_eq_zero.mp hr
    have hv0 : value = [] := List.length_eq_zero.mp hv
    subst hr0
    subst hv0
    rfl
  | succ n ih =>
    intro ret value hr hv
    match ret, value, hr, hv with
    | r :: ret, v :: value, hr, hv =>
      have hr1 : ret.length = n := by simpa using hr
      have hv1 : value.length = n := by simpa using hv
      rw [reductionLoop, ih ret value hr1 hv1]
      rfl

theorem zipWith_length_of_eq {α : Type} (loop : α → α → α) (a b : List α) (n : Nat)
    (ha : a.length = n) (hb : b.length = n) : (List.zipWith loop a b).length = n := by
  rw [List.length_zipWith, ha, hb, Nat.min_self]

theorem reductionRemotes_match {α : Type} (loop : α → α → α) (lenLocal nElem : Int) (n : Nat)
    (hn : nElem.toNat = n) (remote : List (ReductionMsg α)) :
    ∀ (ret : List α), ret.length = n →
      (∀ r ∈ remote, ChMessageInt r.hdr.len = lenLocal ∧ r.elems.length = n) →
      reductionRemotes loop lenLocal nElem ret remote =
        Except.ok (remote.foldl (fun acc r => List.zipWith loop acc r.elems) ret) := by
  induction remote with
  | nil =>
    intro ret _ _
    rfl
  | cons r rs ih =>
    intro ret hret hall
    obtain ⟨hlen, helems⟩ := hall r (List.mem_cons_self _ _)
    have hrs : ∀ q ∈ rs, ChMessageInt q.hdr.len = lenLocal ∧ q.elems.length = n :=
      fun q hq => hall q (List.mem_cons_of_mem _ hq)
    rw [reductionRemotes, CmiAssert_holds _ _ hlen.symm]
    dsimp only
    rw [hn, reductionLoop_exact loop n ret r.elems hret helems]
    dsimp only
    rw [ih _ (zipWith_length_of_eq loop ret r.elems n hret helems) hrs, List.foldl_cons]

theorem reductionRemotes_mismatch {α : Type} (loop : α → α → α) (lenLocal nElem : Int) (n : Nat)
    (hn : nElem.toNat = n) (remote : List (ReductionMsg α)) :
    ∀ (ret : List α), ret.length = n →
      (∀ r ∈ remote, ChMessageInt r.hdr.len = lenLocal → r.elems.length = n) →
      (∃ r ∈ remote, ChMessageInt r.hdr.len ≠ lenLocal) →
      reductionRemotes loop lenLocal nElem ret remote =
        Except.error (Fault.abort "lenLocal == len") := by
  induction remote with
  | nil =>
    intro ret _ _ hex
    obtain ⟨r, hr, _⟩ := hex
    cases hr
  | cons r rs ih =>
    intro ret hret hall hex
    by_cases hlen : ChMessageInt r.hdr.len = lenLocal
    · have helems := hall r (List.mem_cons_self _ _) hlen
      have hrs : ∀ q ∈ rs, ChMessageInt q.hdr.len = lenLocal → q.elems.length = n :=
        fun q hq => hall q (List.mem_cons_of_mem _ hq)
      have hex1 : ∃ q ∈ rs, ChMessageInt q.hdr.len ≠ lenLocal := by
        obtain ⟨q, hq, hne⟩ := hex
        rcases List.mem_cons.mp hq with h | h
        · subst h
          exact absurd hlen hne
        · exact ⟨q, h, hne⟩
      rw [reductionRemotes, CmiAssert_holds _ _ hlen.symm]
      dsimp only
      rw [hn, reductionLoop_exact loop n ret r.elems hret helems]
      dsimp only
      exact ih _ (zipWith_length_of_eq loop ret r.elems n hret helems) hrs hex1
    · have hne : ¬ lenLocal = ChMessageInt r.hdr.len := fun h => hlen h.symm
      rw [reductionRemotes, CmiAssert_fails _ _ hne]

theorem SIMPLE_REDUCTION_eq {α : Type} (sizeofDataType : Nat) (loop : α → α → α) (size : Int)
    (local_ : ReductionMsg α) (remote : List (ReductionMsg α)) (nElem : Int)
    (hn : wrap32 ((ChMessageInt local_.hdr.len % 18446744073709551616)
      / (sizeofDataType : Int)) = nElem) :
    SIMPLE_REDUCTION sizeofDataType loop size local_ remote =
      match reductionRemotes loop (ChMessageInt local_.hdr.len) nElem local_.elems remote with
      | Except.error e => Except.error e
      | Except.ok ret => Except.ok ({ local_ with elems := ret }, size) := by
  rw [SIMPLE_REDUCTION, hn]

theorem wrap32_add_wrap32 (a b : Int) : wrap32 (wrap32 a + b) = wrap32 (a + b) := by
  unfold wrap32
  omega

theorem wrap32_idem (a : Int) : wrap32 (wrap32 a) = wrap32 a := by
  unfold wrap32
  omega

theorem zipWith_getD_int (f : Int → Int → Int) :
    ∀ (a b : List Int) (i : Nat), i < a.length → i < b.length →
      (List.zipWith f a b).getD i 0 = f (a.getD i 0) (b.getD i 0) := by
  intro a
  induction a with
  | nil =>
    intro b i hi _
    simp at hi
  | cons x xs ih =>
    intro b i hi hb
    match b, hb with
    | y :: ys, hb =>
      cases i with
      | zero => rfl
      | succ j =>
        have h1 : j < xs.length := by simpa using hi
        have h2 : j < ys.length := by simpa using hb
        simpa using ih ys j h1 h2

theorem sum_fold_getD (n i : Nat) (hi : i < n) (remote : List (ReductionMsg Int)) :
    ∀ (ret : List Int), ret.length = n → (∀ r ∈ remote, r.elems.length = n) →
      wrap32 (ret.getD i 0) = ret.getD i 0 →
      (remote.foldl (fun acc r => List.zipWith (fun x y => wrap32 (x + y)) acc r.elems)
          ret).getD i 0
        = wrap32 (ret.getD i 0 + (remote.map (fun r => r.elems.getD i 0)).sum) := by
  induction remote with
  | nil =>
    intro ret _ _ hw
    rw [List.foldl_nil, List.map_nil, List.sum_nil, Int.add_zero, hw]
  | cons r rs ih =>
    intro ret hret hall hw
    have hr : r.elems.length = n := hall r (List.mem_cons_self _ _)
    have hrs : ∀ q ∈ rs, q.elems.length = n := fun q hq => hall q (List.mem_cons_of_mem _ hq)
    have hz : (List.zipWith (fun x y => wrap32 (x + y)) ret r.elems).getD i 0
        = wrap32 (ret.getD i 0 + r.elems.getD i 0) :=
      zipWith_getD_int _ ret r.elems i (by omega) (by omega)
    rw [List.foldl_cons,
      ih _ (zipWith_length_of_eq _ ret r.elems n hret hr) hrs (by rw [hz, wrap32_idem]),
      hz, wrap32_add_wrap32, List.map_cons, List.sum_cons, Int.add_assoc]

theorem fold_zipWith_length {α : Type} (loop : α → α → α) (n : Nat)
    (remote : List (ReductionMsg α)) :
    ∀ (ret : List α), ret.length = n → (∀ r ∈ remote, r.elems.length = n) →
      (remote.foldl (fun acc r => List.zipWith loop acc r.elems) ret).length = n := by
  induction remote with
  | nil =>
    intro ret hret _
    exact hret
  | cons r rs ih =>
    intro ret hret hall
    rw [List.foldl_cons]
    exact ih _ (zipWith_length_of_eq loop ret r.elems n hret (hall r (List.mem_cons_self _ _)))
      (fun q hq => hall q (List.mem_cons_of_mem _ hq))

/-- C13: for a local and `k-1` remote `int` array messages that all declare the
payload length `4 * m` and hold `m` elements, `CcsMerge_sum_int` returns the
local message with envelope (so declared length), reserved header and `size`
unchanged and `m` elements; element `i < m` is the 32-bit value of
`local[i] + sum over the remote messages of remote[i]`, and is that sum itself
whenever the sum fits in 32 bits. -/
theorem CcsMerge_sum_int_spec (size : Int) (local_ : ReductionMsg Int)
    (remote : List (ReductionMsg Int)) (m : Nat)
    (hlen : ChMessageInt local_.hdr.len = 4 * (m : Int))
    (hlocal : local_.elems.length = m)
    (hint : ∀ x ∈ local_.elems, -2147483648 ≤ x ∧ x < 2147483648)
    (hremote : ∀ r ∈ remote, ChMessageInt r.hdr.len = 4 * (m : Int) ∧ r.elems.length = m) :
    ∃ out, CcsMerge_sum_int size local_ remote = Except.ok (out, size) ∧
      out.hdr = local_.hdr ∧ out.handlerIdx = local_.handlerIdx ∧
      out.elems.length = m ∧
      ∀ i, i < m →
        out.elems.getD i 0
          = wrap32 (local_.elems.getD i 0 + (remote.map (fun r => r.elems.getD i 0)).sum) ∧
        (-2147483648 ≤ local_.elems.getD i 0 + (remote.map (fun r => r.elems.getD i 0)).sum →
          local_.elems.getD i 0 + (remote.map (fun r => r.elems.getD i 0)).sum < 2147483648 →
          out.elems.getD i 0
            = local_.elems.getD i 0 + (remote.map (fun r => r.elems.getD i 0)).sum) := by
  have hub := ChMessageInt_upper local_.hdr.len
  have hq : (ChMessageInt local_.hdr.len % 18446744073709551616) / ((4 : Nat) : Int)
      = (m : Int) := by
    rw [hlen]
    omega
  have hnE : wrap32 ((ChMessageInt local_.hdr.len % 18446744073709551616)
      / ((4 : Nat) : Int)) = (m : Int) := by
    rw [hq]
    exact wrap32_of_range _ (by omega) (by omega)
  have hall : ∀ r ∈ remote,
      ChMessageInt r.hdr.len = ChMessageInt local_.hdr.len ∧ r.elems.length = m := by
    intro r hr
    obtain ⟨h1, h2⟩ := hremote r hr
    exact ⟨by rw [h1, hlen], h2⟩
  have hrun : CcsMerge_sum_int size local_ remote =
      Except.ok ({ local_ with
        elems := remote.foldl
          (fun acc r => List.zipWith (fun x y => wrap32 (x + y)) acc r.elems) local_.elems },
        size) := by
    rw [CcsMerge_sum_int, SIMPLE_REDUCTION_eq 4 _ size local_ remote (m : Int) hnE,
      reductionRemotes_match _ _ _ m (Int.toNat_ofNat m) remote local_.elems hlocal hall]
  refine ⟨_, hrun, rfl, rfl,
    fold_zipWith_length _ m remote local_.elems hlocal (fun r hr => (hremote r hr).2), ?_⟩
  intro i hi
  have hmem : local_.elems.getD i 0 ∈ local_.elems := by
    rw [List.getD_eq_getElem _ _ (by omega)]
    exact List.getElem_mem _
  have hw : wrap32 (local_.elems.getD i 0) = local_.elems.getD i 0 :=
    wrap32_of_range _ (hint _ hmem).1 (hint _ hmem).2
  have hsum := sum_fold_getD m i hi remote local_.elems hlocal
    (fun r hr => (hremote r hr).2) hw
  exact ⟨hsum, fun h1 h2 => by rw [hsum]; exact wrap32_of_range _ h1 h2⟩

/-- C13 at a concrete input: three messages of three elements each. -/
theorem CcsMerge_sum_int_spec_witness :
    ∃ out, CcsMerge_sum_int 84
        { handlerIdx := some 8, hdr := demoHdr (-1) 12, elems := [1, 2, 3] }
        [{ handlerIdx := some 8, hdr := demoHdr (-1) 12, elems := [10, 20, 30] },
         { handlerIdx := some 8, hdr := demoHdr (-1) 12, elems := [100, 200, 300] }] =
        Except.ok (out, 84) ∧
      out.hdr = demoHdr (-1) 12 ∧ out.handlerIdx = some 8 ∧ out.elems.length = 3 ∧
      out.elems.getD 2 0 = 333 :=
  have h := CcsMerge_sum_int_spec 84
    { handlerIdx := some 8, hdr := demoHdr (-1) 12, elems := [1, 2, 3] }
    [{ handlerIdx := some 8, hdr := demoHdr (-1) 12, elems := [10, 20, 30] },
     { handlerIdx := some 8, hdr := demoHdr (-1) 12, elems := [100, 200, 300] }] 3
    (by decide) (by decide) (by decide) (by decide)
  match h with
  | ⟨out, h1, h2, h3, h4, h5⟩ =>
    ⟨out, h1, h2, h3, h4, ((h5 2 (by decide)).2 (by decide) (by decide)).trans (by decide)⟩

/-- C14: every elementwise merge (the body `SIMPLE_REDUCTION`, for any element
type, element size and loop statement) on messages that hold the elements they
declare fails if and only if some remote message declares a payload length
different from that of the local message, and the failure is then the abort of
the assertion `lenLocal == len`; with no remote message it returns. -/
theorem elementwise_merge_abort_iff {α : Type} (sizeofDataType : Nat) (loop : α → α → α)
    (size : Int) (local_ : ReductionMsg α) (remote : List (ReductionMsg α))
    (hnonneg : 0 ≤ ChMessageInt local_.hdr.len)
    (hlocal : (local_.elems.length : Int)
      = ChMessageInt local_.hdr.len / (sizeofDataType : Int))
    (hremote : ∀ r ∈ remote,
      (r.elems.length : Int) = ChMessageInt r.hdr.len / (sizeofDataType : Int)) :
    ((∃ msg, SIMPLE_REDUCTION sizeofDataType loop size local_ remote
        = Except.error (Fault.abort msg)) ↔
      ∃ r ∈ remote, ChMessageInt r.hdr.len ≠ ChMessageInt local_.hdr.len) ∧
    ((∃ e, SIMPLE_REDUCTION sizeofDataType loop size local_ remote = Except.error e) ↔
      ∃ r ∈ remote, ChMessageInt r.hdr.len ≠ ChMessageInt local_.hdr.len) ∧
    (remote = [] →
      ∃ out, SIMPLE_REDUCTION sizeofDataType loop size local_ remote = Except.ok (out, size)) := by
  have hub := ChMessageInt_upper local_.hdr.len
  have hmod : ChMessageInt local_.hdr.len % 18446744073709551616
      = ChMessageInt local_.hdr.len := by omega
  have hq0 : 0 ≤ ChMessageInt local_.hdr.len / (sizeofDataType : Int) :=
    Int.ediv_nonneg hnonneg (Int.ofNat_nonneg _)
  have hq1 : ChMessageInt local_.hdr.len / (sizeofDataType : Int)
      ≤ ChMessageInt local_.hdr.len := Int.ediv_le_self _ hnonneg
  have hnE : wrap32 ((ChMessageInt local_.hdr.len % 18446744073709551616)
      / (sizeofDataType : Int)) = ((local_.elems.length : Nat) : Int) := by
    rw [hmod, hlocal]
    exact wrap32_of_range _ (by omega) (by omega)
  have hrun := SIMPLE_REDUCTION_eq sizeofDataType loop size local_ remote _ hnE
  have hall : ∀ r ∈ remote, ChMessageInt r.hdr.len = ChMessageInt local_.hdr.len →
      r.elems.length = local_.elems.length := by
    intro r hr heq
    have h1 := hremote r hr
    rw [heq, ← hlocal] at h1
    exact Int.ofNat.inj h1
  by_cases hex : ∃ r ∈ remote, ChMessageInt r.hdr.len ≠ ChMessageInt local_.hdr.len
  · rw [reductionRemotes_mismatch loop _ _ local_.elems.length (Int.toNat_ofNat _) remote
      local_.elems rfl hall hex] at hrun
    refine ⟨⟨fun _ => hex, fun _ => ⟨_, hrun⟩⟩, ⟨fun _ => hex, fun _ => ⟨_, hrun⟩⟩, ?_⟩
    intro hnil
    subst hnil
    obtain ⟨r, hr, _⟩ := hex
    cases hr
  · have hsame : ∀ r ∈ remote, ChMessageInt r.hdr.len = ChMessageInt local_.hdr.len ∧
        r.elems.length = local_.elems.length := by
      intro r hr
      have heq : ChMessageInt r.hdr.len = ChMessageInt local_.hdr.len := by
        by_contra hne
        exact hex ⟨r, hr, hne⟩
      exact ⟨heq, hall r hr heq⟩
    rw [reductionRemotes_match loop _ _ local_.elems.length (Int.toNat_ofNat _) remote
      local_.elems rfl hsame] at hrun
    refine ⟨⟨fun h => ?_, fun h => absurd h hex⟩, ⟨fun h => ?_, fun h => absurd h hex⟩,
      fun _ => ⟨_, hrun⟩⟩
    · obtain ⟨msg, hmsg⟩ := h
      rw [hrun] at hmsg
      cases hmsg
    · obtain ⟨e, he⟩ := h
      rw [hrun] at he
      cases he

/-- C14 at a concrete input: the second remote message declares 8 bytes where
the local message declares 12, and `CcsMerge_sum_int` aborts. -/
theorem elementwise_merge_abort_iff_witness :
    ∃ msg, CcsMerge_sum_int 84
        { handlerIdx := some 8, hdr := demoHdr (-1) 12, elems := [1, 2, 3] }
        [{ handlerIdx := some 8, hdr := demoHdr (-1) 12, elems := [10, 20, 30] },
         { handlerIdx := some 8, hdr := demoHdr (-1) 8, elems := [100, 200] }]
      = Except.error (Fault.abort msg) :=
  (elementwise_merge_abort_iff 4 (fun r v => wrap32 (r + v)) 84
    { handlerIdx := some 8, hdr := demoHdr (-1) 12, elems := [1, 2, 3] }
    [{ handlerIdx := some 8, hdr := demoHdr (-1) 12, elems := [10, 20, 30] },
     { handlerIdx := some 8, hdr := demoHdr (-1) 8, elems := [100, 200] }]
    (by decide) (by decide) (by decide)).1.mpr
    ⟨{ handlerIdx := some 8, hdr := demoHdr (-1) 8, elems := [100, 200] },
     by simp, by decide⟩

/-! ## Reply forwarding -/

theorem CcsImpl_reply_direct (cfg : Config) (rep : CcsImplHeader) (repLen : Int)
    (repData : List Byte) (s : CcsState) (h0 : cfg.CmiMyPe = 0) :
    CcsImpl_reply cfg rep repLen repData s =
      Except.ok (CcsServer_sendReply { rep with len := ChMessageInt_new repLen }
        repLen repData s) := by
  rw [CcsImpl_reply, if_pos h0]

theorem CcsImpl_reply_forward (cfg : Config) (rep : CcsImplHeader) (repLen : Int)
    (repData : List Byte) (s : CcsState) (hpe : cfg.CmiMyPe ≠ 0)
    (hdata : (repData.length : Int) = repLen)
    (hfit : (cfg.CmiReservedHeaderSize : Int) + cfg.sizeofCcsImplHeader + repLen < 2147483648) :
    CcsImpl_reply cfg rep repLen repData s =
      Except.ok (CmiSyncSendAndFree 0
        ((cfg.CmiReservedHeaderSize : Int) + cfg.sizeofCcsImplHeader + repLen)
        (some { handlerIdx := some s.rep_fw_handler_idx
                hdr := { rep with len := ChMessageInt_new repLen }
                data := repData }) s) := by
  have hw : wrap32 ((cfg.CmiReservedHeaderSize : Int) + cfg.sizeofCcsImplHeader + repLen)
      = (cfg.CmiReservedHeaderSize : Int) + cfg.sizeofCcsImplHeader + repLen :=
    wrap32_of_range _ (by omega) hfit
  rw [CcsImpl_reply, if_neg hpe]
  dsimp only
  rw [hw, if_neg (lt_irrefl _), memcpy_all repData repLen hdata]

/-- C15: for every envelope and every payload of `repLen` bytes (message length
within an `int`), `CcsImpl_reply` on a PE other than 0 sends exactly one
message to PE 0, tagged with the reply-intake handler; `rep_fw_handler` on PE 0
applied to that message does what `CcsImpl_reply` does directly on PE 0: one
`CcsServer_sendReply` with the same payload bytes, the length `repLen`, and the
envelope with `len` rewritten to `repLen` and every other field unchanged. -/
theorem reply_forwarding_round_trip (cfgA cfg0 : Config) (rep : CcsImplHeader)
    (repLen : Int) (repData : List Byte) (sA s0 : CcsState)
    (hA : cfgA.CmiMyPe ≠ 0) (h0 : cfg0.CmiMyPe = 0)
    (hdata : (repData.length : Int) = repLen)
    (hfit : (cfgA.CmiReservedHeaderSize : Int) + cfgA.sizeofCcsImplHeader + repLen
      < 2147483648) :
    ∃ msg sA1, CcsImpl_reply cfgA rep repLen repData sA = Except.ok sA1 ∧
      sA1.sends = sA.sends ++
        [{ destPE := 0
           len := (cfgA.CmiReservedHeaderSize : Int) + cfgA.sizeofCcsImplHeader + repLen
           msg := some msg }] ∧
      sA1.delivered = sA.delivered ∧
      msg.handlerIdx = some sA.rep_fw_handler_idx ∧
      rep_fw_handler cfg0 msg s0 = CcsImpl_reply cfg0 rep repLen repData s0 ∧
      ∃ s1, rep_fw_handler cfg0 msg s0 = Except.ok s1 ∧
        s1.delivered = s0.delivered ++
          [{ rep := { rep with len := ChMessageInt_new repLen }
             repLen := repLen, repData := repData }] ∧
        s1.sends = s0.sends := by
  have hround : ChMessageInt (ChMessageInt_new repLen) = repLen :=
    ChMessageInt_new_roundtrip repLen (by omega) (by omega)
  have hfw : rep_fw_handler cfg0
      { handlerIdx := some sA.rep_fw_handler_idx
        hdr := { rep with len := ChMessageInt_new repLen }
        data := repData } s0 =
      Except.ok (CcsServer_sendReply { rep with len := ChMessageInt_new repLen }
        repLen repData s0) := by
    rw [rep_fw_handler]
    dsimp only
    rw [hround, CcsImpl_reply_direct cfg0 _ repLen repData s0 h0]
  refine ⟨{ handlerIdx := some sA.rep_fw_handler_idx
            hdr := { rep with len := ChMessageInt_new repLen }
            data := repData }, _,
    CcsImpl_reply_forward cfgA rep repLen repData sA hA hdata hfit, rfl, rfl, rfl, ?_,
    _, hfw, rfl, rfl⟩
  rw [hfw, CcsImpl_reply_direct cfg0 rep repLen repData s0 h0]

/-- C15 at a concrete input: the reply "hi" leaves PE 2 and reaches the client
through PE 0. -/
theorem reply_forwarding_round_trip_witness :
    ∃ msg sA1, CcsImpl_reply { demoCfg with CmiMyPe := 2 } (demoHdr 2 9) 2 [104, 105] demoState
        = Except.ok sA1 ∧
      sA1.sends = demoState.sends ++
        [{ destPE := 0
           len := (demoCfg.CmiReservedHeaderSize : Int) + demoCfg.sizeofCcsImplHeader + 2
           msg := some msg }] ∧
      sA1.delivered = demoState.delivered ∧
      msg.handlerIdx = some demoState.rep_fw_handler_idx ∧
      rep_fw_handler demoCfg msg demoState
        = CcsImpl_reply demoCfg (demoHdr 2 9) 2 [104, 105] demoState ∧
      ∃ s1, rep_fw_handler demoCfg msg demoState = Except.ok s1 ∧
        s1.delivered = demoState.delivered ++
          [{ rep := { demoHdr 2 9 with len := ChMessageInt_new 2 }
             repLen := 2, repData := [104, 105] }] ∧
        s1.sends = demoState.sends :=
  reply_forwarding_round_trip { demoCfg with CmiMyPe := 2 } demoCfg (demoHdr 2 9) 2
    [104, 105] demoState demoState (by decide) (by decide) (by decide) (by decide)

/-! ## Startup buffer -/

theorem CcsBufferMessage_store (m : ConverseMsg) (s : CcsState) (j : Nat)
    (hj : s.CcsNumBufferedMsgs = (j : Int)) (hlt : j < 100) :
    CcsBufferMessage m s =
      Except.ok { s with
        bufferedMessages := some ((bufferArray s).set j (some m))
        CcsNumBufferedMsgs := (j : Int) + 1 } := by
  have h1 : ¬ ¬ (s.CcsNumBufferedMsgs < CCS_MAX_NUM_BUFFERED_MSGS) := by
    rw [hj, CCS_MAX_NUM_BUFFERED_MSGS]
    omega
  have h2 : ¬ s.CcsNumBufferedMsgs < 0 := by
    rw [hj]
    omega
  have h3 : s.CcsNumBufferedMsgs.toNat = j := by
    rw [hj]
    exact Int.toNat_ofNat j
  rw [CcsBufferMessage, if_neg h1, if_neg h2]
  dsimp only
  rw [h3, hj]
  rfl

theorem CcsBufferMessage_full (m : ConverseMsg) (s : CcsState)
    (h : s.CcsNumBufferedMsgs = 100) :
    CcsBufferMessage m s =
      Except.error (Fault.abort "CcsNumBufferedMsgs < CCS_MAX_NUM_BUFFERED_MSGS") := by
  have h1 : ¬ (s.CcsNumBufferedMsgs < CCS_MAX_NUM_BUFFERED_MSGS) := by
    rw [h, CCS_MAX_NUM_BUFFERED_MSGS]
    omega
  rw [CcsBufferMessage, if_pos h1]

theorem CcsBufferMessage_released (m : ConverseMsg) (s : CcsState)
    (h : s.CcsNumBufferedMsgs = -1) :
    CcsBufferMessage m s =
      Except.error (Fault.abort "Why is a CCS message being buffered now???") := by
  have h1 : ¬ ¬ (s.CcsNumBufferedMsgs < CCS_MAX_NUM_BUFFERED_MSGS) := by
    rw [h, CCS_MAX_NUM_BUFFERED_MSGS]
    omega
  have h2 : s.CcsNumBufferedMsgs < 0 := by
    rw [h]
    omega
  rw [CcsBufferMessage, if_neg h1, if_pos h2]

theorem set_next_entry (pre : List ConverseMsg) (m : ConverseMsg) (h : pre.length < 100) :
    (pre.map some ++ List.replicate (100 - pre.length) none).set pre.length (some m)
      = (pre ++ [m]).map some ++ List.replicate (100 - (pre.length + 1)) none := by
  have hrep : List.replicate (100 - pre.length) (none : Option ConverseMsg)
      = none :: List.replicate (100 - (pre.length + 1)) none := by
    have : 100 - pre.length = (100 - (pre.length + 1)) + 1 := by omega
    rw [this, List.replicate_succ]
  rw [hrep, List.set_append, if_neg (by simp)]
  simp

theorem bufferAll_spec (ms : List ConverseMsg) :
    ∀ (pre : List ConverseMsg) (s : CcsState),
      s.CcsNumBufferedMsgs = (pre.length : Int) →
      bufferArray s = pre.map some ++ List.replicate (100 - pre.length) none →
      pre.length + ms.length ≤ 100 →
      ∃ s1, bufferAll ms s = Except.ok s1 ∧
        s1.CcsNumBufferedMsgs = ((pre.length + ms.length : Nat) : Int) ∧
        bufferArray s1
          = (pre ++ ms).map some ++ List.replicate (100 - (pre.length + ms.length)) none ∧
        (ms = [] → s1 = s) ∧
        s1.enqueued = s.enqueued ∧ s1._ccsHandlerIdx = s._ccsHandlerIdx := by
  induction ms with
  | nil =>
    intro pre s hcount harr _
    refine ⟨s, rfl, ?_, ?_, fun _ => rfl, rfl, rfl⟩
    · simpa using hcount
    · simpa using harr
  | cons m ms ih =>
    intro pre s hcount harr hle
    have hlt : pre.length < 100 := by
      simp only [List.length_cons] at hle
      omega
    have hstep := CcsBufferMessage_store m s pre.length hcount hlt
    have hcount1 : ({ s with
        bufferedMessages := some ((bufferArray s).set pre.length (some m))
        CcsNumBufferedMsgs := (pre.length : Int) + 1 } : CcsState).CcsNumBufferedMsgs
        = ((pre ++ [m]).length : Int) := by
      simp
    have harr1 : bufferArray ({ s with
        bufferedMessages := some ((bufferArray s).set pre.length (some m))
        CcsNumBufferedMsgs := (pre.length : Int) + 1 } : CcsState)
        = (pre ++ [m]).map some ++ List.replicate (100 - (pre ++ [m]).length) none := by
      show (bufferArray s).set pre.length (some m) = _
      rw [harr, set_next_entry pre m hlt]
      simp
    have hle1 : (pre ++ [m]).length + ms.length ≤ 100 := by
      simp only [List.length_cons, List.length_append, List.length_nil] at hle ⊢
      omega
    obtain ⟨s1, hrun, hc, ha, _, he, hi⟩ := ih (pre ++ [m]) _ hcount1 harr1 hle1
    refine ⟨s1, ?_, ?_, ?_, (fun h => by cases h), he, hi⟩
    · rw [bufferAll, hstep]
      exact hrun
    · rw [hc]
      simp only [List.length_cons, List.length_append, List.length_nil]
      congr 1
      omega
    · rw [ha]
      simp only [List.length_cons, List.length_append, List.length_nil, List.append_assoc,
        List.singleton_append]
      congr 2
      omega

theorem releaseLoop_spec (idx : Int) (ms : List ConverseMsg) :
    ∀ (rest : List (Option ConverseMsg)) (s : CcsState),
      ∃ s1, releaseLoop idx ms.length (ms.map some ++ rest) s = Except.ok s1 ∧
        s1.enqueued = s.enqueued ++ ms.map (fun m => { m with handlerIdx := some idx }) ∧
        s1.replies = s.replies ∧ s1.sends = s.sends := by
  induction ms with
  | nil =>
    intro rest s
    exact ⟨s, rfl, by simp, rfl, rfl⟩
  | cons m ms ih =>
    intro rest s
    obtain ⟨s1, hrun, he, hr, hs⟩ := ih rest (CsdEnqueue { m with handlerIdx := some idx } s)
    refine ⟨s1, ?_, ?_, hr, hs⟩
    · rw [List.length_cons, List.map_cons, List.cons_append, releaseLoop]
      exact hrun
    · rw [he]
      simp [CsdEnqueue]

theorem CcsReleaseMessages_nonempty (s : CcsState) (arr : List (Option ConverseMsg))
    (s2 : CcsState) (hpos : s.CcsNumBufferedMsgs > 0) (harr : s.bufferedMessages = some arr)
    (hloop : releaseLoop s._ccsHandlerIdx s.CcsNumBufferedMsgs.toNat arr s = Except.ok s2) :
    CcsReleaseMessages false s
      = Except.ok { s2 with bufferedMessages := none, CcsNumBufferedMsgs := -1 } := by
  rw [CcsReleaseMessages, if_neg (by decide), if_pos hpos, harr]
  dsimp only
  rw [hloop]

theorem release_after_buffering (ms : List ConverseMsg) (s0 : CcsState) (idx : Int)
    (hnull : s0.bufferedMessages = none) (hzero : s0.CcsNumBufferedMsgs = 0)
    (hk : ms.length ≤ 100) :
    ∃ s1 s2, bufferAll ms s0 = Except.ok s1 ∧ s1.enqueued = s0.enqueued ∧
      s1.CcsNumBufferedMsgs = (ms.length : Int) ∧
      bufferArray s1 = ms.map some ++ List.replicate (100 - ms.length) none ∧
      (ms = [] → s1 = s0) ∧
      CcsReleaseMessages false { s1 with _ccsHandlerIdx := idx } = Except.ok s2 ∧
      s2.enqueued = s0.enqueued ++ ms.map (fun m => { m with handlerIdx := some idx }) ∧
      (ms ≠ [] → s2.CcsNumBufferedMsgs = -1 ∧ s2.bufferedMessages = none) ∧
      (ms = [] → s2 = { s0 with _ccsHandlerIdx := idx }) := by
  have harr0 : bufferArray s0
      = ([] : List ConverseMsg).map some ++ List.replicate (100 - ([] : List ConverseMsg).length)
          none := by
    rw [bufferArray, hnull]
    rfl
  obtain ⟨s1, hrun, hc, ha, hnil, he, _⟩ :=
    bufferAll_spec ms [] s0 (by simpa using hzero) harr0 (by simpa using hk)
  have hc1 : s1.CcsNumBufferedMsgs = (ms.length : Int) := by simpa using hc
  have ha1 : bufferArray s1 = ms.map some ++ List.replicate (100 - ms.length) none := by
    simpa using ha
  cases hms : ms with
  | nil =>
    subst hms
    have hs1 : s1 = s0 := hnil rfl
    subst hs1
    have hnot : ¬ s1.CcsNumBufferedMsgs > 0 := by
      rw [hzero]
      omega
    refine ⟨s1, { s1 with _ccsHandlerIdx := idx }, hrun, rfl, by simpa using hzero,
      by simpa using ha1, fun _ => rfl, ?_, by simp, fun h => absurd rfl h, fun _ => rfl⟩
    rw [CcsReleaseMessages, if_neg (by decide), if_neg hnot]
  | cons m rest =>
    rw [hms] at hc1 ha1 hrun hk
    have hpos : s1.CcsNumBufferedMsgs > 0 := by
      rw [hc1]
      simp only [List.length_cons]
      omega
    have hsome : ∃ arr, s1.bufferedMessages = some arr := by
      cases hb : s1.bufferedMessages with
      | some arr => exact ⟨arr, rfl⟩
      | none =>
        exfalso
        rw [bufferArray, hb] at ha1
        have hlen := congrArg List.length ha1
        have h0 := congrArg (fun l => l.head?) ha1
        simp [CCS_MAX_NUM_BUFFERED_MSGS] at h0
    obtain ⟨arr, harr⟩ := hsome
    have harr2 : arr = (m :: rest).map some
        ++ List.replicate (100 - (m :: rest).length) none := by
      rw [bufferArray, harr] at ha1
      exact ha1
    obtain ⟨s2, hloop, he2, _, _⟩ := releaseLoop_spec idx (m :: rest)
      (List.replicate (100 - (m :: rest).length) none) { s1 with _ccsHandlerIdx := idx }
    have htoNat : s1.CcsNumBufferedMsgs.toNat = (m :: rest).length := by
      rw [hc1]
      exact Int.toNat_ofNat _
    refine ⟨s1, { s2 with bufferedMessages := none, CcsNumBufferedMsgs := -1 }, hrun, he,
      hc1, ha1, (fun h => by cases h), ?_, ?_, (fun _ => ⟨rfl, rfl⟩), (fun h => by cases h)⟩
    · have hloop1 : releaseLoop ({ s1 with _ccsHandlerIdx := idx } : CcsState)._ccsHandlerIdx
          ({ s1 with _ccsHandlerIdx := idx } : CcsState).CcsNumBufferedMsgs.toNat arr
          { s1 with _ccsHandlerIdx := idx } = Except.ok s2 := by
        show releaseLoop idx s1.CcsNumBufferedMsgs.toNat arr _ = _
        rw [htoNat, harr2]
        exact hloop
      exact CcsReleaseMessages_nonempty { s1 with _ccsHandlerIdx := idx } arr s2 hpos harr hloop1
    · show s2.enqueued = _
      rw [he2, he]

theorem CcsReleaseMessages_noop (s : CcsState) (h : ¬ s.CcsNumBufferedMsgs > 0) :
    CcsReleaseMessages false s = Except.ok s := by
  rw [CcsReleaseMessages, if_neg (by decide), if_neg h]

/-- C16: from an untouched startup buffer, `k ≤ 100` messages handed to
`CcsBufferMessage` one after the other are all accepted without any being
scheduled; the first `CcsReleaseMessages` then appends to the scheduler queue
exactly these messages, once each, in arrival order, each tagged with the
request-forwarding handler index; a second `CcsReleaseMessages` leaves the state,
and so the scheduler queue, unchanged. -/
theorem startup_buffer_fifo_release (ms : List ConverseMsg) (s0 : CcsState) (idx : Int)
    (hnull : s0.bufferedMessages = none) (hzero : s0.CcsNumBufferedMsgs = 0)
    (hk : ms.length ≤ 100) :
    ∃ s1 s2, bufferAll ms s0 = Except.ok s1 ∧ s1.enqueued = s0.enqueued ∧
      CcsReleaseMessages false { s1 with _ccsHandlerIdx := idx } = Except.ok s2 ∧
      s2.enqueued = s0.enqueued ++ ms.map (fun m => { m with handlerIdx := some idx }) ∧
      CcsReleaseMessages false s2 = Except.ok s2 := by
  obtain ⟨s1, s2, hrun, he, _, _, _, hrel, he2, hne, hnil⟩ :=
    release_after_buffering ms s0 idx hnull hzero hk
  refine ⟨s1, s2, hrun, he, hrel, he2, ?_⟩
  apply CcsReleaseMessages_noop
  by_cases hms : ms = []
  · rw [hnil hms]
    show ¬ s0.CcsNumBufferedMsgs > 0
    rw [hzero]
    omega
  · rw [(hne hms).1]
    omega

/-- C16 at a concrete input: two buffered requests are released in arrival
order, tagged with handler index 7. -/
theorem startup_buffer_fifo_release_witness :
    ∃ s1 s2, bufferAll [rawMsg 0 1, rawMsg 1 2] startupState = Except.ok s1 ∧
      s1.enqueued = startupState.enqueued ∧
      CcsReleaseMessages false { s1 with _ccsHandlerIdx := 7 } = Except.ok s2 ∧
      s2.enqueued = startupState.enqueued ++
        [rawMsg 0 1, rawMsg 1 2].map (fun m => { m with handlerIdx := some 7 }) ∧
      CcsReleaseMessages false s2 = Except.ok s2 :=
  startup_buffer_fifo_release [rawMsg 0 1, rawMsg 1 2] startupState 7 rfl rfl (by decide)

/-- C17: from an untouched startup buffer, any `k ≤ 100` successive calls of
`CcsBufferMessage` all succeed, the counter is `k` and the first `k` array
entries are the messages in call order; after exactly 100 stored messages the
next call aborts on the capacity assertion, storing nothing. -/
theorem startup_buffer_capacity (ms : List ConverseMsg) (extra : ConverseMsg) (s0 : CcsState)
    (hnull : s0.bufferedMessages = none) (hzero : s0.CcsNumBufferedMsgs = 0)
    (hk : ms.length ≤ 100) :
    ∃ s1, bufferAll ms s0 = Except.ok s1 ∧
      s1.CcsNumBufferedMsgs = (ms.length : Int) ∧
      (bufferArray s1).take ms.length = ms.map some ∧
      (ms.length = 100 →
        CcsBufferMessage extra s1 =
          Except.error (Fault.abort "CcsNumBufferedMsgs < CCS_MAX_NUM_BUFFERED_MSGS")) := by
  obtain ⟨s1, _, hrun, _, hc, ha, _, _, _, _, _⟩ :=
    release_after_buffering ms s0 0 hnull hzero hk
  refine ⟨s1, hrun, hc, ?_, ?_⟩
  · rw [ha]
    exact List.take_left' (List.length_map ms some)
  · intro hfull
    apply CcsBufferMessage_full
    rw [hc, hfull]
    rfl

/-- C17 at a concrete input: 100 copies of one request fill the buffer and the
101st call aborts. -/
theorem startup_buffer_capacity_witness :
    ∃ s1, bufferAll (List.replicate 100 (rawMsg 0 1)) startupState = Except.ok s1 ∧
      s1.CcsNumBufferedMsgs = ((List.replicate 100 (rawMsg 0 1)).length : Int) ∧
      (bufferArray s1).take (List.replicate 100 (rawMsg 0 1)).length
        = (List.replicate 100 (rawMsg 0 1)).map some ∧
      ((List.replicate 100 (rawMsg 0 1)).length = 100 →
        CcsBufferMessage (rawMsg 1 2) s1 =
          Except.error (Fault.abort "CcsNumBufferedMsgs < CCS_MAX_NUM_BUFFERED_MSGS")) :=
  startup_buffer_capacity (List.replicate 100 (rawMsg 0 1)) (rawMsg 1 2) startupState rfl rfl
    (by simp)

/-- C19: after `k ≤ 100` messages were buffered and `CcsReleaseMessages` ran, a
later `CcsBufferMessage` aborts when `k ≥ 1`; when `k = 0` the release leaves
the counter at 0 and the later call succeeds and stores its message in entry 0
of a new array. -/
theorem buffer_after_release (ms : List ConverseMsg) (late : ConverseMsg) (s0 : CcsState)
    (idx : Int) (hnull : s0.bufferedMessages = none) (hzero : s0.CcsNumBufferedMsgs = 0)
    (hk : ms.length ≤ 100) :
    ∃ s1 s2, bufferAll ms s0 = Except.ok s1 ∧
      CcsReleaseMessages false { s1 with _ccsHandlerIdx := idx } = Except.ok s2 ∧
      (ms ≠ [] → CcsBufferMessage late s2 =
        Except.error (Fault.abort "Why is a CCS message being buffered now???")) ∧
      (ms = [] → ∃ s3, CcsBufferMessage late s2 = Except.ok s3 ∧
        s3.CcsNumBufferedMsgs = 1 ∧ (bufferArray s3).head? = some (some late)) := by
  obtain ⟨s1, s2, hrun, _, _, _, _, hrel, _, hne, hnil⟩ :=
    release_after_buffering ms s0 idx hnull hzero hk
  refine ⟨s1, s2, hrun, hrel, ?_, ?_⟩
  · intro hms
    exact CcsBufferMessage_released late s2 (hne hms).1
  · intro hms
    have hs2 := hnil hms
    have hcount : s2.CcsNumBufferedMsgs = ((0 : Nat) : Int) := by
      rw [hs2]
      exact hzero
    have harr : bufferArray s2 = List.replicate 100 none := by
      rw [hs2]
      show bufferArray s0 = _
      rw [bufferArray, hnull]
      rfl
    refine ⟨_, CcsBufferMessage_store late s2 0 hcount (by decide), rfl, ?_⟩
    show ((bufferArray s2).set 0 (some late)).head? = _
    rw [harr]
    rfl

/-- C19 at a concrete input: nothing was buffered, the release ran, and a later
`CcsBufferMessage` still stores its message. -/
theorem buffer_after_release_witness :
    ∃ s1 s2, bufferAll [] startupState = Except.ok s1 ∧
      CcsReleaseMessages false { s1 with _ccsHandlerIdx := 7 } = Except.ok s2 ∧
      (([] : List ConverseMsg) ≠ [] → CcsBufferMessage (rawMsg 0 1) s2 =
        Except.error (Fault.abort "Why is a CCS message being buffered now???")) ∧
      (([] : List ConverseMsg) = [] → ∃ s3, CcsBufferMessage (rawMsg 0 1) s2 = Except.ok s3 ∧
        s3.CcsNumBufferedMsgs = 1 ∧ (bufferArray s3).head? = some (some (rawMsg 0 1))) :=
  buffer_after_release [] (rawMsg 0 1) startupState 7 rfl rfl (by decide)

/-! ## Packing of a request -/

theorem ccs2converse_uninitialized (cfg : Config) (hdr : CcsImplHeader)
    (reqData : List Byte) (s : CcsState)
    (hinit : s._ccsHandlerIdx = 0) (hwf : WellFormedRequest cfg hdr reqData) :
    CcsImpl_ccs2converse cfg false hdr reqData s =
      match CcsBufferMessage
          { handlerIdx := none, hdr := hdr, data := reqData.take (packedDataLen hdr).toNat } s with
      | Except.error e => Except.error e
      | Except.ok s1 => Except.ok (none, packedLen cfg hdr, s1) := by
  obtain ⟨h0, h1, h2⟩ := hwf
  have hu := ChMessageInt_upper hdr.len
  have hreq : (if ChMessageInt hdr.pe < -1
      then wrap32 (ChMessageInt hdr.len - ChMessageInt hdr.pe * 4)
      else ChMessageInt hdr.len) = packedDataLen hdr := by
    unfold packedDataLen
    split
    · rename_i hlt
      simp only [hlt, if_true] at h2
      rw [wrap32_of_range _ (by omega) (by omega)]
      omega
    · omega
  have hpos : 0 ≤ packedDataLen hdr := by
    unfold packedDataLen; split <;> omega
  have hfit : packedDataLen hdr ≤ (reqData.length : Int) := h1
  have hneed : wrap32 ((cfg.CmiReservedHeaderSize : Int) + cfg.sizeofCcsImplHeader
      + packedDataLen hdr) = packedLen cfg hdr := by
    unfold packedLen
    apply wrap32_of_range
    · omega
    · unfold packedDataLen; omega
  rw [CcsImpl_ccs2converse, hreq, hneed]
  have hnot : ¬ (packedLen cfg hdr < (cfg.CmiReservedHeaderSize : Int)
      + cfg.sizeofCcsImplHeader + packedDataLen hdr) := by
    unfold packedLen; omega
  have hm : memcpy reqData (packedDataLen hdr)
      = Except.ok (reqData.take (packedDataLen hdr).toNat) := by
    unfold memcpy
    rw [if_pos ⟨hpos, hfit⟩]
    rfl
  rw [if_neg hnot, hm]
  show (if s._ccsHandlerIdx ≠ 0 then _ else _) = _
  rw [if_neg (not_not.mpr hinit)]
  rfl

theorem packedData_length (cfg : Config) (hdr : CcsImplHeader) (reqData : List Byte)
    (hwf : WellFormedRequest cfg hdr reqData) :
    ((reqData.take (packedDataLen hdr).toNat).length : Int) = packedDataLen hdr := by
  obtain ⟨h0, h1, _⟩ := hwf
  have hpos : 0 ≤ packedDataLen hdr := by
    unfold packedDataLen; split <;> omega
  have hfit : packedDataLen hdr ≤ (reqData.length : Int) := h1
  rw [List.length_take]
  have := Int.toNat_of_nonneg hpos
  omega

/-- C18: for a request whose data holds what the envelope declares (payload
length `L ≥ 0`, selector `s`, total fitting an `int`), `CcsImpl_ccs2converse`
builds a message whose envelope is the given one and whose data bytes are the
leading bytes of the request data, `L` of them when `s ≥ -1` and `L + 4 * (-s)`
when `s < -1`; the reported length is reserved header + envelope + that number
of data bytes.  With the router initialized the tagged message is returned;
before initialization the same message is handed to `CcsBufferMessage`. -/
theorem ccs2converse_message_length (cfg : Config) (convhost : Bool) (hdr : CcsImplHeader)
    (reqData : List Byte) (s : CcsState) (hwf : WellFormedRequest cfg hdr reqData) :
    ∃ (msg : ConverseMsg) (len : Int),
      (-1 ≤ ChMessageInt hdr.pe →
        len = (cfg.CmiReservedHeaderSize : Int) + cfg.sizeofCcsImplHeader
          + ChMessageInt hdr.len) ∧
      (ChMessageInt hdr.pe < -1 →
        len = (cfg.CmiReservedHeaderSize : Int) + cfg.sizeofCcsImplHeader
          + ChMessageInt hdr.len + 4 * (-(ChMessageInt hdr.pe))) ∧
      msg.hdr = hdr ∧
      (cfg.CmiReservedHeaderSize : Int) + cfg.sizeofCcsImplHeader + (msg.data.length : Int)
        = len ∧
      msg.data = reqData.take msg.data.length ∧
      (s._ccsHandlerIdx ≠ 0 →
        CcsImpl_ccs2converse cfg convhost hdr reqData s =
          Except.ok (some { msg with handlerIdx := some s._ccsHandlerIdx }, len, s)) ∧
      (s._ccsHandlerIdx = 0 →
        CcsImpl_ccs2converse cfg false hdr reqData s =
          match CcsBufferMessage msg s with
          | Except.error e => Except.error e
          | Except.ok s1 => Except.ok (none, len, s1)) := by
  have hA : -1 ≤ ChMessageInt hdr.pe →
      packedLen cfg hdr = (cfg.CmiReservedHeaderSize : Int) + cfg.sizeofCcsImplHeader
        + ChMessageInt hdr.len := by
    intro hs
    rw [packedLen, packedDataLen, if_neg (by omega)]
    omega
  have hB : ChMessageInt hdr.pe < -1 →
      packedLen cfg hdr = (cfg.CmiReservedHeaderSize : Int) + cfg.sizeofCcsImplHeader
        + ChMessageInt hdr.len + 4 * (-(ChMessageInt hdr.pe)) := by
    intro hs
    rw [packedLen, packedDataLen, if_pos hs]
    omega
  have hC : (cfg.CmiReservedHeaderSize : Int) + cfg.sizeofCcsImplHeader
      + ((reqData.take (packedDataLen hdr).toNat).length : Int) = packedLen cfg hdr := by
    rw [packedData_length cfg hdr reqData hwf, packedLen]
  have hD : s._ccsHandlerIdx ≠ 0 →
      CcsImpl_ccs2converse cfg convhost hdr reqData s =
        Except.ok (some { handlerIdx := some s._ccsHandlerIdx, hdr := hdr
                          data := reqData.take (packedDataLen hdr).toNat },
          packedLen cfg hdr, s) := by
    intro hinit
    rw [ccs2converse_initialized cfg convhost hdr reqData s hinit hwf, packedMsg]
  have hE := ccs2converse_uninitialized cfg hdr reqData s
  generalize (packedDataLen hdr).toNat = n at hC hD hE
  generalize packedLen cfg hdr = len at hA hB hC hD hE
  refine ⟨{ handlerIdx := none, hdr := hdr, data := reqData.take n }, len, hA, hB, rfl, hC,
    ?_, hD, fun hinit => hE hinit hwf⟩
  show reqData.take n = reqData.take (reqData.take n).length
  rw [List.length_take]
  rcases le_total n reqData.length with h | h
  · rw [min_eq_left h]
  · rw [min_eq_right h, List.take_of_length_le h, List.take_length]

/-- C18 at a concrete input: a multicast request to 2 PEs with 2 payload bytes
is packed into 16 + 56 + 2 + 8 bytes. -/
theorem ccs2converse_message_length_witness :
    ∃ (msg : ConverseMsg) (len : Int),
      (-1 ≤ ChMessageInt (demoHdr (-2) 2).pe →
        len = (demoCfg.CmiReservedHeaderSize : Int) + demoCfg.sizeofCcsImplHeader
          + ChMessageInt (demoHdr (-2) 2).len) ∧
      (ChMessageInt (demoHdr (-2) 2).pe < -1 →
        len = (demoCfg.CmiReservedHeaderSize : Int) + demoCfg.sizeofCcsImplHeader
          + ChMessageInt (demoHdr (-2) 2).len + 4 * (-(ChMessageInt (demoHdr (-2) 2).pe))) ∧
      msg.hdr = demoHdr (-2) 2 ∧
      (demoCfg.CmiReservedHeaderSize : Int) + demoCfg.sizeofCcsImplHeader
          + (msg.data.length : Int) = len ∧
      msg.data = [0, 0, 0, 1, 0, 0, 0, 3, 104, 105].take msg.data.length ∧
      (demoState._ccsHandlerIdx ≠ 0 →
        CcsImpl_ccs2converse demoCfg false (demoHdr (-2) 2)
            [0, 0, 0, 1, 0, 0, 0, 3, 104, 105] demoState =
          Except.ok (some { msg with handlerIdx := some demoState._ccsHandlerIdx }, len,
            demoState)) ∧
      (demoState._ccsHandlerIdx = 0 →
        CcsImpl_ccs2converse demoCfg false (demoHdr (-2) 2)
            [0, 0, 0, 1, 0, 0, 0, 3, 104, 105] demoState =
          match CcsBufferMessage msg demoState with
          | Except.error e => Except.error e
          | Except.ok s1 => Except.ok (none, len, s1)) :=
  ccs2converse_message_length demoCfg false (demoHdr (-2) 2)
    [0, 0, 0, 1, 0, 0, 0, 3, 104, 105] demoState (by decide)

/-! ## Request router: range of the destination -/

theorem tmod_range (a b : Int) (hb : 0 < b) :
    -b < Int.tmod a b ∧ Int.tmod a b < b ∧ (0 ≤ a → 0 ≤ Int.tmod a b) ∧
      (a < 0 → Int.tmod a b ≤ 0) ∧ (a < 0 → -b < a → Int.tmod a b = a) := by
  have hup := Int.tmod_lt_of_pos a hb
  have hneg : Int.tmod (-a) b = -(Int.tmod a b) := by
    simp [Int.tmod_def, Int.neg_tdiv]
    ring
  by_cases ha : 0 ≤ a
  · have h0 := Int.tmod_nonneg b ha
    exact ⟨by omega, hup, fun _ => h0, fun h => by omega, fun h => by omega⟩
  · have h1 := Int.tmod_nonneg b (show (0 : Int) ≤ -a by omega)
    have h2 := Int.tmod_lt_of_pos (-a) hb
    refine ⟨by omega, hup, fun h => by omega, fun _ => by omega, fun _ hlo => ?_⟩
    have h3 := Int.tmod_eq_of_lt (show (0 : Int) ≤ -a by omega) (show -a < b by omega)
    omega

/-- C20: on an initialized router with `N` PEs, every accepted well-formed
request leads to exactly one `CmiSyncSendAndFree`.  For a unicast or broadcast
selector the destination lies in `[0, N-1]`.  For a multicast selector the
destination is the C remainder `first % N` of the first list entry: it lies in
`[-(N-1), N-1]`, is non-negative when the entry is, and when the entry is
negative it is not positive, and equals the entry itself for `-N < first < 0`. -/
theorem netRequest_destination_range (cfg : Config) (hdr : CcsImplHeader)
    (reqData : List Byte) (s : CcsState)
    (hlo : -cfg.CmiNumPes < ChMessageInt hdr.pe)
    (hhi : ChMessageInt hdr.pe < cfg.CmiNumPes)
    (hinit : s._ccsHandlerIdx ≠ 0) (hwf : WellFormedRequest cfg hdr reqData) :
    ∃ s1 c, CcsImpl_netRequest cfg hdr reqData s = Except.ok s1 ∧
      s1.sends = s.sends ++ [c] ∧
      (-1 ≤ ChMessageInt hdr.pe → 0 ≤ c.destPE ∧ c.destPE ≤ cfg.CmiNumPes - 1) ∧
      (ChMessageInt hdr.pe < -1 →
        ∃ first, readChMessageInt reqData = Except.ok first ∧
          c.destPE = Int.tmod (ChMessageInt first) cfg.CmiNumPes ∧
          -(cfg.CmiNumPes - 1) ≤ c.destPE ∧ c.destPE ≤ cfg.CmiNumPes - 1 ∧
          (0 ≤ ChMessageInt first → 0 ≤ c.destPE) ∧
          (ChMessageInt first < 0 → c.destPE ≤ 0) ∧
          (ChMessageInt first < 0 → -cfg.CmiNumPes < ChMessageInt first →
            c.destPE = ChMessageInt first)) := by
  obtain ⟨dest, hrun, hu, hb, hm⟩ :=
    netRequest_accepted_sends cfg hdr reqData s hlo hhi hinit hwf
  have hN : 0 < cfg.CmiNumPes := by omega
  refine ⟨_, ⟨dest, packedLen cfg hdr, some (packedMsg s._ccsHandlerIdx hdr reqData)⟩,
    hrun, rfl, ?_, ?_⟩
  · intro hsel
    show 0 ≤ dest ∧ dest ≤ cfg.CmiNumPes - 1
    by_cases h0 : 0 ≤ ChMessageInt hdr.pe
    · have ht : Int.tmod (ChMessageInt hdr.pe) cfg.CmiNumPes = ChMessageInt hdr.pe :=
        Int.tmod_eq_of_lt h0 hhi
      rw [hu h0, ht]
      omega
    · rw [hb (by omega)]
      omega
  · intro hsel
    obtain ⟨first, hfirst, hdest⟩ := hm hsel
    refine ⟨first, hfirst, hdest, ?_⟩
    show -(cfg.CmiNumPes - 1) ≤ dest ∧ dest ≤ cfg.CmiNumPes - 1 ∧ (_ → 0 ≤ dest) ∧
      (_ → dest ≤ 0) ∧ (_ → _ → dest = _)
    rw [hdest]
    generalize ChMessageInt first = a
    obtain ⟨h1, h2, h3, h4, h5⟩ := tmod_range a cfg.CmiNumPes hN
    exact ⟨by omega, by omega, h3, h4, h5⟩

/-- C20 at a concrete input: 4 PEs, selector -2, PE list (-1, 1), payload "hi";
the request is accepted and the one send goes to destination -1. -/
theorem netRequest_destination_range_witness :
    ∃ s1 c, CcsImpl_netRequest demoCfg (demoHdr (-2) 2)
        [255, 255, 255, 255, 0, 0, 0, 1, 104, 105] demoState = Except.ok s1 ∧
      s1.sends = demoState.sends ++ [c] ∧
      c.destPE = -1 := by
  obtain ⟨s1, c, hrun, hsends, _, hm⟩ :=
    netRequest_destination_range demoCfg (demoHdr (-2) 2)
      [255, 255, 255, 255, 0, 0, 0, 1, 104, 105] demoState
      (by decide) (by decide) (by decide) (by decide)
  obtain ⟨first, hfirst, hdest, _⟩ := hm (by decide)
  have hf : (Except.ok ⟨255, 255, 255, 255⟩ : Except Fault ChMessageInt_t)
      = Except.ok first := hfirst
  have hff := Except.ok.inj hf
  subst hff
  exact ⟨s1, c, hrun, hsends, hdest.trans (by decide)⟩

/-! ## Concatenation merge across reduction stages -/

theorem memcpy_prefix (src : List Byte) (n : Int) (h0 : 0 ≤ n) (h1 : n ≤ (src.length : Int)) :
    memcpy src n = Except.ok (src.take n.toNat) := by
  rw [memcpy, if_pos ⟨h0, h1⟩]
  rfl

theorem take_toNat_length (src : List Byte) (n : Int) (h0 : 0 ≤ n)
    (h1 : n ≤ (src.length : Int)) : ((src.take n.toNat).length : Int) = n := by
  rw [List.length_take]
  have := Int.toNat_of_nonneg h0
  omega

theorem remote_sum_nonneg (remote : List ConverseMsg)
    (h : ∀ r ∈ remote, 0 ≤ ChMessageInt r.hdr.len ∧
      ChMessageInt r.hdr.len ≤ (r.data.length : Int)) :
    0 ≤ (remote.map (fun r => ChMessageInt r.hdr.len)).sum := by
  apply List.sum_nonneg
  intro x hx
  obtain ⟨q, hq, rfl⟩ := List.mem_map.mp hx
  exact (h q hq).1

theorem concatLoop_prefix (remote : List ConverseMsg) :
    ∀ (room : Int),
      (∀ r ∈ remote, 0 ≤ ChMessageInt r.hdr.len ∧
        ChMessageInt r.hdr.len ≤ (r.data.length : Int)) →
      (remote.map (fun r => ChMessageInt r.hdr.len)).sum ≤ room →
      concatLoop remote room = Except.ok
        (remote.map (fun r => r.data.take (ChMessageInt r.hdr.len).toNat)).flatten := by
  induction remote with
  | nil =>
    intro room _ _
    rfl
  | cons r rs ih =>
    intro room hlen hroom
    have hr := hlen r (List.mem_cons_self _ _)
    have hrs : ∀ q ∈ rs, 0 ≤ ChMessageInt q.hdr.len ∧
        ChMessageInt q.hdr.len ≤ (q.data.length : Int) :=
      fun q hq => hlen q (List.mem_cons_of_mem _ hq)
    have hsum := remote_sum_nonneg rs hrs
    rw [List.map_cons, List.sum_cons] at hroom
    have hn : ChMessageInt r.hdr.len ≤ room := by omega
    have hcopy : concatCopy r room
        = Except.ok (r.data.take (ChMessageInt r.hdr.len).toNat,
            room - ChMessageInt r.hdr.len) := by
      rw [concatCopy, if_pos hn, memcpy_prefix r.data _ hr.1 hr.2]
    rw [concatLoop, hcopy]
    dsimp only
    rw [ih (room - ChMessageInt r.hdr.len) hrs (by omega)]
    simp

theorem payloads_length (remote : List ConverseMsg)
    (h : ∀ r ∈ remote, 0 ≤ ChMessageInt r.hdr.len ∧
      ChMessageInt r.hdr.len ≤ (r.data.length : Int)) :
    (((remote.map (fun r => r.data.take (ChMessageInt r.hdr.len).toNat)).flatten.length
        : Nat) : Int)
      = (remote.map (fun r => ChMessageInt r.hdr.len)).sum := by
  induction remote with
  | nil => rfl
  | cons r rs ih =>
    have hr := h r (List.mem_cons_self _ _)
    have hrs : ∀ q ∈ rs, 0 ≤ ChMessageInt q.hdr.len ∧
        ChMessageInt q.hdr.len ≤ (q.data.length : Int) :=
      fun q hq => h q (List.mem_cons_of_mem _ hq)
    rw [List.map_cons, List.flatten_cons, List.length_append, Nat.cast_add, ih hrs,
      take_toNat_length r.data _ hr.1 hr.2, List.map_cons, List.sum_cons]

theorem concat_run (cfg : Config) (size : Int) (local_ : ConverseMsg)
    (remote : List ConverseMsg)
    (hlo : (cfg.CmiReservedHeaderSize : Int) + cfg.sizeofCcsImplHeader ≤ size)
    (hhi : size - cfg.CmiReservedHeaderSize - cfg.sizeofCcsImplHeader
      ≤ (local_.data.length : Int))
    (hremote : ∀ r ∈ remote, 0 ≤ ChMessageInt r.hdr.len ∧
      ChMessageInt r.hdr.len ≤ (r.data.length : Int))
    (hfit : size + (remote.map (fun r => ChMessageInt r.hdr.len)).sum < 2147483648) :
    CcsMerge_concat cfg size local_ remote =
      Except.ok
        ({ handlerIdx := local_.handlerIdx
           hdr := { local_.hdr with
             len := ChMessageInt_new (size + (remote.map (fun r => ChMessageInt r.hdr.len)).sum
               - cfg.CmiReservedHeaderSize - cfg.sizeofCcsImplHeader) }
           data := local_.data.take
               (size - cfg.CmiReservedHeaderSize - cfg.sizeofCcsImplHeader).toNat
             ++ (remote.map (fun r => r.data.take (ChMessageInt r.hdr.len).toNat)).flatten },
         size + (remote.map (fun r => ChMessageInt r.hdr.len)).sum) := by
  have hsum := remote_sum_nonneg remote hremote
  have htotal := concat_total remote size (by omega) (fun r hr => (hremote r hr).1) hfit
  have hk0 : ¬ size - (cfg.CmiReservedHeaderSize : Int) - cfg.sizeofCcsImplHeader < 0 := by
    omega
  have hts : ¬ size + (remote.map (fun r => ChMessageInt r.hdr.len)).sum < size := by omega
  have hroom : size + (remote.map (fun r => ChMessageInt r.hdr.len)).sum - size
      = (remote.map (fun r => ChMessageInt r.hdr.len)).sum := by omega
  rw [CcsMerge_concat, htotal]
  dsimp only
  rw [if_neg hk0, if_neg hts, memcpy_prefix local_.data _ (by omega) hhi, hroom,
    concatLoop_prefix remote _ hremote (le_refl _)]

theorem merged_twice (m : ConverseMsg) (v1 v2 : ChMessageInt_t) (d1 d2 : List Byte) :
    ({ handlerIdx :=
         ({ handlerIdx := m.handlerIdx, hdr := { m.hdr with len := v1 }, data := d1 }
           : ConverseMsg).handlerIdx
       hdr :=
         { ({ handlerIdx := m.handlerIdx, hdr := { m.hdr with len := v1 }, data := d1 }
             : ConverseMsg).hdr with len := v2 }
       data := d2 } : ConverseMsg)
      = { handlerIdx := m.handlerIdx, hdr := { m.hdr with len := v2 }, data := d2 } :=
  rfl

/-- C21, as stated, fails for `n = 0`: with a 16-byte reserved header and a
56-byte envelope, a local buffer of 73 bytes whose envelope declares 2 payload
bytes, merged with no remote buffer and size 73, comes back with the same
payload byte and the same size, but with the declared length rewritten to 1:
the result is not a byte-identical copy. -/
theorem CcsMerge_concat_no_remote_rewrites_len :
    ∃ reply, CcsMerge_concat demoCfg 73
        { handlerIdx := none, hdr := demoHdr 0 2, data := [1] } [] = Except.ok (reply, 73) ∧
      reply.data = [1] ∧
      ChMessageInt (demoHdr 0 2).len = 2 ∧
      ChMessageInt reply.hdr.len = 1 ∧
      reply ≠ { handlerIdx := none, hdr := demoHdr 0 2, data := [1] } :=
  ⟨_, rfl, rfl, by decide, by decide, by decide⟩

/-- C21 (amended): for a size argument that spans reserved header and envelope
and lies within the local buffer, remote buffers that hold their declared
payloads, and a merged size that fits an `int`: merging the local buffer with
`R1..Rj` and then merging that result, with the size it reported, with
`Rj+1..Rn` returns the same reply (same bytes, same declared length) and the
same size as merging with `R1..Rn` in one call; the size is the size argument
plus all declared remote lengths, the declared length is that size less
reserved header and envelope.  With no remote buffer the reply is the leading
`size` bytes of the local buffer with the declared length set to `size` less
reserved header and envelope, the size unchanged; it is the local buffer
itself when that buffer has exactly `size` bytes and declares that length. -/
theorem CcsMerge_concat_stages (cfg : Config) (size : Int) (local_ : ConverseMsg)
    (front back : List ConverseMsg)
    (hlo : (cfg.CmiReservedHeaderSize : Int) + cfg.sizeofCcsImplHeader ≤ size)
    (hhi : size - cfg.CmiReservedHeaderSize - cfg.sizeofCcsImplHeader
      ≤ (local_.data.length : Int))
    (hremote : ∀ r ∈ front ++ back, 0 ≤ ChMessageInt r.hdr.len ∧
      ChMessageInt r.hdr.len ≤ (r.data.length : Int))
    (hfit : size + ((front ++ back).map (fun r => ChMessageInt r.hdr.len)).sum
      < 2147483648) :
    ∃ r1 s1 reply total,
      CcsMerge_concat cfg size local_ front = Except.ok (r1, s1) ∧
      CcsMerge_concat cfg s1 r1 back = Except.ok (reply, total) ∧
      CcsMerge_concat cfg size local_ (front ++ back) = Except.ok (reply, total) ∧
      s1 = size + (front.map (fun r => ChMessageInt r.hdr.len)).sum ∧
      total = size + ((front ++ back).map (fun r => ChMessageInt r.hdr.len)).sum ∧
      ChMessageInt reply.hdr.len
        = total - cfg.CmiReservedHeaderSize - cfg.sizeofCcsImplHeader ∧
      reply.data = local_.data.take
          (size - cfg.CmiReservedHeaderSize - cfg.sizeofCcsImplHeader).toNat
        ++ ((front ++ back).map
            (fun r => r.data.take (ChMessageInt r.hdr.len).toNat)).flatten ∧
      CcsMerge_concat cfg size local_ [] =
        Except.ok
          ({ handlerIdx := local_.handlerIdx
             hdr := { local_.hdr with
               len := ChMessageInt_new
                 (size - cfg.CmiReservedHeaderSize - cfg.sizeofCcsImplHeader) }
             data := local_.data.take
               (size - cfg.CmiReservedHeaderSize - cfg.sizeofCcsImplHeader).toNat },
           size) ∧
      ((local_.data.length : Int)
          = size - cfg.CmiReservedHeaderSize - cfg.sizeofCcsImplHeader →
        local_.hdr.len = ChMessageInt_new
          (size - cfg.CmiReservedHeaderSize - cfg.sizeofCcsImplHeader) →
        CcsMerge_concat cfg size local_ [] = Except.ok (local_, size)) := by
  have hA : ∀ r ∈ front, 0 ≤ ChMessageInt r.hdr.len ∧
      ChMessageInt r.hdr.len ≤ (r.data.length : Int) :=
    fun r hr => hremote r (List.mem_append_left _ hr)
  have hB : ∀ r ∈ back, 0 ≤ ChMessageInt r.hdr.len ∧
      ChMessageInt r.hdr.len ≤ (r.data.length : Int) :=
    fun r hr => hremote r (List.mem_append_right _ hr)
  have hsumAB : ((front ++ back).map (fun r => ChMessageInt r.hdr.len)).sum
      = (front.map (fun r => ChMessageInt r.hdr.len)).sum
        + (back.map (fun r => ChMessageInt r.hdr.len)).sum := by
    rw [List.map_append, List.sum_append]
  have hsA := remote_sum_nonneg front hA
  have hsB := remote_sum_nonneg back hB
  have hpA := payloads_length front hA
  have hhead := take_toNat_length local_.data
    (size - cfg.CmiReservedHeaderSize - cfg.sizeofCcsImplHeader) (by omega) hhi
  -- the three runs
  have h1 := concat_run cfg size local_ front hlo hhi hA (by omega)
  have h3 := concat_run cfg size local_ (front ++ back) hlo hhi hremote hfit
  have h0 := concat_run cfg size local_ [] hlo hhi (by simp) (by simp; omega)
  simp only [List.map_nil, List.sum_nil, add_zero, List.flatten_nil, List.append_nil] at h0
  have hlen : ChMessageInt (ChMessageInt_new
      (size + (front.map (fun r => ChMessageInt r.hdr.len)).sum
        + (back.map (fun r => ChMessageInt r.hdr.len)).sum
        - cfg.CmiReservedHeaderSize - cfg.sizeofCcsImplHeader))
      = size + (front.map (fun r => ChMessageInt r.hdr.len)).sum
        + (back.map (fun r => ChMessageInt r.hdr.len)).sum
        - cfg.CmiReservedHeaderSize - cfg.sizeofCcsImplHeader :=
    ChMessageInt_new_roundtrip _ (by omega) (by omega)
  have hassoc : size + ((front.map (fun r => ChMessageInt r.hdr.len)).sum
        + (back.map (fun r => ChMessageInt r.hdr.len)).sum)
      = size + (front.map (fun r => ChMessageInt r.hdr.len)).sum
        + (back.map (fun r => ChMessageInt r.hdr.len)).sum := by omega
  rw [hsumAB, hassoc, List.map_append, List.flatten_append] at h3
  generalize ChMessageInt_new (size + (front.map (fun r => ChMessageInt r.hdr.len)).sum
      - cfg.CmiReservedHeaderSize - cfg.sizeofCcsImplHeader) = v1 at h1
  have hd1 : ((local_.data.take
        (size - cfg.CmiReservedHeaderSize - cfg.sizeofCcsImplHeader).toNat
      ++ (front.map (fun r => r.data.take (ChMessageInt r.hdr.len).toNat)).flatten).length
        : Int)
      = size + (front.map (fun r => ChMessageInt r.hdr.len)).sum
        - cfg.CmiReservedHeaderSize - cfg.sizeofCcsImplHeader := by
    rw [List.length_append, Nat.cast_add, hhead, hpA]
    omega
  have h2 := concat_run cfg (size + (front.map (fun r => ChMessageInt r.hdr.len)).sum)
    { handlerIdx := local_.handlerIdx
      hdr := { local_.hdr with len := v1 }
      data := local_.data.take
          (size - cfg.CmiReservedHeaderSize - cfg.sizeofCcsImplHeader).toNat
        ++ (front.map (fun r => r.data.take (ChMessageInt r.hdr.len).toNat)).flatten }
    back (by omega) (le_of_eq hd1.symm) hB (by omega)
  dsimp only at h2
  have htake : (local_.data.take
        (size - cfg.CmiReservedHeaderSize - cfg.sizeofCcsImplHeader).toNat
      ++ (front.map (fun r => r.data.take (ChMessageInt r.hdr.len).toNat)).flatten).take
        (size + (front.map (fun r => ChMessageInt r.hdr.len)).sum
          - cfg.CmiReservedHeaderSize - cfg.sizeofCcsImplHeader).toNat
      = local_.data.take
          (size - cfg.CmiReservedHeaderSize - cfg.sizeofCcsImplHeader).toNat
        ++ (front.map (fun r => r.data.take (ChMessageInt r.hdr.len).toNat)).flatten := by
    apply List.take_of_length_le
    omega
  rw [htake, List.append_assoc] at h2
  generalize ChMessageInt_new (size + (front.map (fun r => ChMessageInt r.hdr.len)).sum
      + (back.map (fun r => ChMessageInt r.hdr.len)).sum
      - cfg.CmiReservedHeaderSize - cfg.sizeofCcsImplHeader) = v at h2 h3 hlen
  obtain ⟨f1, _, _, _, _, _⟩ := merged_reply_fields local_ v
    (local_.data.take (size - cfg.CmiReservedHeaderSize - cfg.sizeofCcsImplHeader).toNat
      ++ ((front.map (fun r => r.data.take (ChMessageInt r.hdr.len).toNat)).flatten
        ++ (back.map (fun r => r.data.take (ChMessageInt r.hdr.len).toNat)).flatten))
  rw [← f1] at hlen
  refine ⟨_, _, _, _, h1, h2, h3, rfl, ?_, hlen, ?_, h0, ?_⟩
  · rw [hsumAB]
    omega
  · rw [List.map_append, List.flatten_append]
  · intro hdl hfield
    rw [h0, ← hfield, List.take_of_length_le (by omega)]

/-- C21 (amended) at a concrete input: a local buffer with payload (1) merged
with remote payloads (2), then (3), (4), against one call with (2), (3), (4). -/
theorem CcsMerge_concat_stages_witness :
    ∃ r1 reply,
      CcsMerge_concat demoCfg 73 (rawMsg 0 1) [rawMsg 1 2] = Except.ok (r1, 74) ∧
      CcsMerge_concat demoCfg 74 r1 [rawMsg 2 3, rawMsg 3 4] = Except.ok (reply, 76) ∧
      CcsMerge_concat demoCfg 73 (rawMsg 0 1) [rawMsg 1 2, rawMsg 2 3, rawMsg 3 4]
        = Except.ok (reply, 76) ∧
      ChMessageInt reply.hdr.len = 4 ∧
      reply.data = [1, 2, 3, 4] ∧
      CcsMerge_concat demoCfg 73 (rawMsg 0 1) [] = Except.ok (rawMsg 0 1, 73) := by
  obtain ⟨r1, s1, reply, total, h1, h2, h3, hs1, ht, hl, hd, _, hid⟩ :=
    CcsMerge_concat_stages demoCfg 73 (rawMsg 0 1) [rawMsg 1 2] [rawMsg 2 3, rawMsg 3 4]
      (by decide) (by decide) (by decide) (by decide)
  have e1 : s1 = 74 := hs1.trans (by decide)
  have e2 : total = 76 := ht.trans (by decide)
  subst e1 e2
  exact ⟨r1, reply, h1, h2, h3, hl.trans (by decide), hd.trans (by decide),
    hid (by decide) (by decide)⟩

end ConvCcs
